import Mathlib

/-!
The data-connection negotiation commands and the path resolver of ebftpd.

A shallow embedding of the command handlers of `cmd/command.cpp` that negotiate the data
channel (`PORT`, `PASV`, `EPRT`, `EPSV`, `LPRT`), log a session in (`USER`, `PASS`), move
files (`RETR`, `STOR`, `RNFR`, `RNTO`), list directories (`LIST`, `NLST`, `STAT`), report
features (`FEAT`) and set session options (`PROT`, `SITE EPSV`), and of the virtual/real path
resolver of `fs/path.cpp`.

A `std::string` is a Lean `String`, inspected through its list of characters.  The control
channel and the data channel of a client are modelled by the logs of what the handler did to
them: the replies it sent and the calls it made on the data connection.
-/

/-! ## Strings as byte sequences -/

namespace util

/-- The bytes of one character in UTF-8, each given as the character of that code: a
character below 128 is its own single byte. -/
def utf8Bytes (c : Char) : List Char :=
  if c.toNat < 128 then [c]
  else if c.toNat < 2048 then
    [Char.ofNat (192 + c.toNat / 64), Char.ofNat (128 + c.toNat % 64)]
  else if c.toNat < 65536 then
    [Char.ofNat (224 + c.toNat / 4096), Char.ofNat (128 + c.toNat / 64 % 64),
      Char.ofNat (128 + c.toNat % 64)]
  else
    [Char.ofNat (240 + c.toNat / 262144), Char.ofNat (128 + c.toNat / 4096 % 64),
      Char.ofNat (128 + c.toNat / 64 % 64), Char.ofNat (128 + c.toNat % 64)]

/-- The bytes that a `std::string` holds for a text. `substr(0, 1)` yields the first of these,
which is the first character of the text only when that character is below 128; for a text
of characters below 128 the bytes are the characters themselves. -/
def bytes (text : String) : List Char :=
  (text.toList.map utf8Bytes).flatten

end util

/-! ## Library routines used by the handlers (Boost string algorithms, `lexical_cast`) -/

namespace boost

/-- The predicate `boost::is_any_of(set)`: the character occurs in `set`. -/
def is_any_of (set : List Char) (c : Char) : Bool := set.contains c

/-- The call `boost::split(result, input, pred)` with the default `token_compress_off`: every
character satisfying `pred` ends a token, so an input with `k` separators yields `k + 1`
tokens (empty ones included) and the empty input yields one empty token. -/
def split (pred : Char → Bool) : List Char → List (List Char)
  | [] => [[]]
  | c :: cs =>
    if pred c then [] :: split pred cs
    else
      match split pred cs with
      | [] => [[c]]
      | t :: ts => (c :: t) :: ts

/-- Value of a decimal digit character, `none` for any other character. -/
def digitValue (c : Char) : Option Nat :=
  if '0' ≤ c ∧ c ≤ '9' then some (c.toNat - '0'.toNat) else none

/-- Reads a sequence of decimal digits into the number it denotes, most significant digit
first; `none` when a character is not a digit.  The empty sequence reads as `0`. -/
def readDigits : List Char → Nat → Option Nat
  | [], acc => some acc
  | c :: cs, acc =>
    match digitValue c with
    | none => none
    | some d => readDigits cs (acc * 10 + d)

/-- The digit reader `lcast_ret_unsigned<T>::convert` of `lexical_cast` for an unsigned type
whose largest value is `max`: the input must be a non-empty run of decimal digits whose value
fits the type. -/
def lcast_ret_unsigned (max : Nat) (s : List Char) : Option Nat :=
  match s with
  | [] => none
  | _ :: _ =>
    match readDigits s 0 with
    | none => none
    | some v => if v ≤ max then some v else none

/-- The conversion `boost::lexical_cast<int16_t>(s)`; `none` stands for `bad_lexical_cast`.
The whole string must be one optional sign followed by decimal digits (no blanks), and the
value must fit `int16_t`: the digits are read into the unsigned counterpart `uint16_t`, then
compared with `32767` (or with `32768` after a minus sign). -/
def lexical_cast_int16 (s : List Char) : Option Int :=
  match s with
  | [] => none
  | c :: rest =>
    let has_minus := c == '-'
    let digits := if has_minus || c == '+' then rest else s
    match lcast_ret_unsigned 65535 digits with
    | none => none
    | some out_tmp =>
      if has_minus then
        if out_tmp ≤ 32768 then some (-(out_tmp : Int)) else none
      else
        if out_tmp ≤ 32767 then some (out_tmp : Int) else none

/-- The conversion `boost::lexical_cast<uint16_t>(s)`; `none` stands for `bad_lexical_cast`.
One optional sign followed by decimal digits whose value fits `uint16_t`.  As the Boost
documentation of `lexical_cast` states for unsigned targets, a leading minus sign is not an
error: the digits are read as an unsigned value which is then negated modulo `2^16`
(`output = static_cast<Type>(0u - output)`), so `"-1"` converts to `65535`. -/
def lexical_cast_uint16 (s : List Char) : Option Nat :=
  match s with
  | [] => none
  | c :: rest =>
    let has_minus := c == '-'
    let digits := if has_minus || c == '+' then rest else s
    match lcast_ret_unsigned 65535 digits with
    | none => none
    | some output => some (if has_minus then (2 ^ 32 - output) % 2 ^ 16 else output)

/-- The call `boost::to_upper(str)` in the classic locale: the letters `a` to `z` become
`A` to `Z`, every other character stays. -/
def to_upper (str : String) : String := String.mk (str.toList.map Char.toUpper)

/-- The test `std::isspace` in the classic locale, which `boost::trim` uses: space, tab, line
feed, vertical tab, form feed, carriage return. -/
def is_space (c : Char) : Bool :=
  c == ' ' || (9 ≤ c.toNat && c.toNat ≤ 13)

/-- The call `boost::trim(str)`: the white space at both ends is removed. -/
def trim (str : List Char) : List Char :=
  ((str.dropWhile is_space).reverse.dropWhile is_space).reverse

/-- The call `str.substr(pos)`, also the constructor `std::string(str, pos)`: the characters
from position `pos` on; `none` stands for the `std::out_of_range` raised when `pos` is past
the end. -/
def substr (str : List Char) (pos : Nat) : Option (List Char) :=
  if pos ≤ str.length then some (str.drop pos) else none

/-- The scan of `boost::replace_all_copy`: `skip` characters of a match are still to be
passed over; otherwise, where `search` starts, `format` is put out instead of it. -/
def replace_all_scan (search format : List Char) : Nat → List Char → List Char
  | _, [] => []
  | skip + 1, _ :: rest => replace_all_scan search format skip rest
  | 0, c :: rest =>
    if search ≠ [] ∧ search.isPrefixOf (c :: rest) = true then
      format ++ replace_all_scan search format (search.length - 1) rest
    else
      c :: replace_all_scan search format 0 rest

/-- The call `boost::replace_all_copy(input, search, format)`: every occurrence of `search`,
found from left to right, is replaced by `format`. -/
def replace_all_copy (input search format : List Char) : List Char :=
  replace_all_scan search format 0 input

end boost

/-! ## Network endpoints and the client -/

namespace util.net

/-- Address family of an `IPAddress`. -/
inductive Family
  | IPv4
  | IPv6
deriving DecidableEq, Repr

/-- An `IPAddress`: its family and its textual form (what `ToString` and `operator<<` print). -/
structure IPAddress where
  family : Family
  text : String
deriving DecidableEq, Repr

/-- An `Endpoint`: an IP address and a port. -/
structure Endpoint where
  ip : IPAddress
  port : Nat
deriving DecidableEq, Repr

/-- The default-constructed `Endpoint`. -/
def Endpoint.default : Endpoint := ⟨⟨Family.IPv4, ""⟩, 0⟩

end util.net

namespace ftp

open util.net

/-- The reply codes of `ftp::ReplyCode` used by the handlers below. -/
inductive ReplyCode
  | CommandOkay
  | ExtendedPassiveMode
  | CantOpenDataConnection
  | SyntaxError
  | TransferStatusOkay
  | DataClosedOkay
  | DataCloseAborted
  | ActionNotOkay
  | FileActionOkay
  | UserLoggedIn
  | NeedPassword
  | NotLoggedIn
  | ParameterNotImplemented
  | CommandUnrecognised
  | NoCode
  | SystemStatus
  | DirectoryStatus
  | PendingMoreInfo
  | PassiveMode
deriving DecidableEq, Repr

/-- The extended-passive addressing mode of a session. -/
inductive EPSVMode
  | EPSVNormal
  | EPSVFull
deriving DecidableEq, Repr

/-- The authentication stage of a session (`ftp::ClientState`). -/
inductive ClientState
  | LoggedOut
  | WaitingPassword
  | LoggedIn
  | Finished
deriving DecidableEq, Repr

/-- A call made on the data connection of a client: setting it up, opening it, writing a
buffer to it, closing it. -/
inductive DataCall
  | DataInitialise (ep : Endpoint) (passive : Bool)
  | DataOpen
  | Write (buffer : List Char)
  | DataClose
deriving DecidableEq, Repr

/-- What one `boost::iostreams::read` on a file stream gives: a buffer of characters, or an
`ios_base::failure`. -/
inductive ReadResult
  | chunk (buffer : List Char)
  | failure
deriving DecidableEq, Repr

/-- A file opened for reading: what the successive reads give, after which every read
returns `-1` (end of file). -/
abbrev InStream := List ReadResult

/-- What the peer sends on the data connection: the buffers that the successive
`client.data.Read` calls return, after which `Read` raises `EndOfStream` (`ending = none`) or
a `NetworkError` with a message. -/
structure Incoming where
  chunks : List (List Char)
  ending : Option String
deriving DecidableEq, Repr

/-- The part of `ftp::Client` the handlers touch: the replies written to the control channel
(oldest first), the calls made on the data connection (oldest first; the state of the data
channel changes only through them), the session's EPSV mode, its authentication stage, the
name of its account (`User().Name()`), the count of failed passwords, the data-protection
flag, the pending rename source (`RenameFrom()`, empty when none is pending), and the
continuation lines written to the control channel with `PartReply` (oldest first), each with
the number of replies that had been written before it, which places it among the replies. -/
structure Client where
  control : List (ReplyCode × String)
  data : List DataCall
  extPasvMode : EPSVMode
  state : ClientState := ClientState.LoggedOut
  user : String := ""
  passwordAttempts : Nat := 0
  dataProtected : Bool := false
  renameFrom : String := ""
  parts : List (Nat × ReplyCode × String) := []
deriving DecidableEq, Repr

/-- What a directory listing puts out: its lines, and the message of the `NetworkError` that
writing them to the data connection then raises, `none` when the data connection takes them
all. -/
structure Listing where
  lines : List String
  error : Option String
deriving DecidableEq, Repr

/-- What the handlers take from their surroundings.
* `ipAddress`: the address check of the `Endpoint(address, port)` constructor
  (`none` stands for `InvalidIPAddressError`);
* `dataInitialise`: the outcome of `Client::DataInitialise(ep, passive)`, the endpoint left
  in `ep` (the listener's endpoint in passive mode) or `none` for a `NetworkError`;
* `endpointToString`: the text of `Endpoint::ToString`;
* `splitToType`: the helper `util::SplitToType(str, sep, fields)` filling a vector of
  `int16_t` (`none` when it raises);
* `rawEndpoint`: whether `Endpoint(addr, port)` on a raw byte buffer constructs (`false`
  when it raises);
* `verifyPassword`: whether the secret is the password of the named account;
* `maxPasswordAttempts`: the configured limit of failed passwords;
* `basename`: the text of `fs::Path(str).Basename().ToString()`;
* `openFile`: the outcome of `fs::OpenFile(client, path)`, the stream or the message of the
  `SystemError`;
* `createFile`: the outcome of `fs::CreateFile(client, path)`, `some` message for a
  `SystemError`;
* `dataOpen`: the outcome of `Client::DataOpen()`, `some` message for a `NetworkError`;
* `dataWrite`: the outcome of `client.data.Write(buffer, len)` after the calls made so far,
  `some` message for a `NetworkError`;
* `incoming`: what `client.data.Read` delivers once the data connection is open;
* `renameFile`: the outcome of `fs::RenameFile(client, from, to)`, `some` message for a
  failure;
* `listing`: what `DirectoryList::Execute` puts out for a path, the options the client gave
  and the options the handler forces;
* `expand`: the text of `(client.WorkDir() / str).Expand()`;
* `status`: the outcome of `fs::Status(path)`, `some` message for a `SystemError`. -/
structure Env where
  ipAddress : String → Option IPAddress
  dataInitialise : Endpoint → Bool → Option Endpoint
  endpointToString : Endpoint → String
  splitToType : String → Char → Option (List Int)
  rawEndpoint : List Int → Nat → Bool
  verifyPassword : String → String → Bool
  maxPasswordAttempts : Nat
  basename : String → String
  openFile : String → Except String InStream
  createFile : String → Option String
  dataOpen : Option String
  dataWrite : List DataCall → List Char → Option String
  incoming : Incoming
  renameFile : String → String → Option String
  listing : String → String → String → Listing
  expand : String → String
  status : String → Option String

/-- The method `Client::Reply(code, text)`: one reply line on the control channel. -/
def Client.Reply (client : Client) (code : ReplyCode) (text : String) : Client :=
  { client with control := client.control ++ [(code, text)] }

/-- The method `Client::DataInitialise(ep, passive)`: the call is recorded on the data
connection; its outcome comes from the environment. -/
def Client.DataInitialise (env : Env) (client : Client) (ep : Endpoint) (passive : Bool) :
    Client × Option Endpoint :=
  ({ client with data := client.data ++ [DataCall.DataInitialise ep passive] },
    env.dataInitialise ep passive)

/-- Modelled from the spec: the method `Client::PartReply(code, text)` of `ftp/client.cpp`,
which is not part of the sources at hand. It "sends an intermediate line of a multi-line
reply using the continuation marker": the line is recorded after the replies written so
far. -/
def Client.PartReply (client : Client) (code : ReplyCode) (text : String) : Client :=
  { client with parts := client.parts ++ [(client.control.length, code, text)] }

/-- Modelled from the spec: the code that the overloads `Reply(text)` and `PartReply(text)`
of `ftp/client.cpp`, which are not part of the sources at hand, put on their line. They name
no code of their own, so the line carries the code of the line written last (`NoCode` when
nothing has been written). -/
def Client.lastCode (client : Client) : ReplyCode :=
  match client.parts.getLast?, client.control.getLast? with
  | some (position, code, _), some (last, _) =>
    if position == client.control.length then code else last
  | some (_, code, _), none => code
  | none, some (last, _) => last
  | none, none => ReplyCode.NoCode

/-- The overload `Client::Reply(text)`: a terminating reply with the code of the line written
last. -/
def Client.ReplyText (client : Client) (text : String) : Client :=
  client.Reply client.lastCode text

/-- The overload `Client::PartReply(text)`: a continuation line with the code of the line
written last. -/
def Client.PartReplyText (client : Client) (text : String) : Client :=
  client.PartReply client.lastCode text

/-- Modelled from the spec: the setter `Client::SetRenameFrom` of `ftp/client.cpp`, which is
not part of the sources at hand. The "rename-source path (set by one command...)". -/
def Client.SetRenameFrom (client : Client) (path : String) : Client :=
  { client with renameFrom := path }

/-- The method `Client::DataOpen()`: the call is recorded on the data connection; `some`
message stands for the `NetworkError` it raises. -/
def Client.DataOpen (env : Env) (client : Client) : Client × Option String :=
  ({ client with data := client.data ++ [DataCall.DataOpen] }, env.dataOpen)

/-- The method `Client::DataClose()`. -/
def Client.DataClose (client : Client) : Client :=
  { client with data := client.data ++ [DataCall.DataClose] }

/-- The call `client.data.Write(buffer, len)`: the call is recorded on the data connection;
`some` message stands for the `NetworkError` it raises. -/
def Client.Write (env : Env) (client : Client) (buffer : List Char) : Client × Option String :=
  ({ client with data := client.data ++ [DataCall.Write buffer] },
    env.dataWrite client.data buffer)

/-- Modelled from the spec: the setter `Client::SetLoggedIn` of `ftp/client.cpp`, which is
not part of the sources at hand. "On success → `LoggedIn`". -/
def Client.SetLoggedIn (client : Client) : Client :=
  { client with state := ClientState.LoggedIn }

/-- Modelled from the spec: the setter `Client::SetLoggedOut` of `ftp/client.cpp`, which is
not part of the sources at hand. "Otherwise → `Unauthenticated` (falls back, must
re-`USER`)". -/
def Client.SetLoggedOut (client : Client) : Client :=
  { client with state := ClientState.LoggedOut }

/-- Modelled from the spec: the setter `Client::SetWaitingPassword` of `ftp/client.cpp`,
which is not part of the sources at hand. "Else → `WaitingPassword`". -/
def Client.SetWaitingPassword (client : Client) : Client :=
  { client with state := ClientState.WaitingPassword }

/-- Modelled from the spec: the setter `Client::SetFinished` of `ftp/client.cpp`, which is
not part of the sources at hand. "A terminal `Finished` reachable from any state". -/
def Client.SetFinished (client : Client) : Client :=
  { client with state := ClientState.Finished }

/-- Modelled from the spec: the method `Client::VerifyPassword` of `ftp/client.cpp`, which is
not part of the sources at hand. The secret is checked against the session's account; "on
failure, increment attempt counter". -/
def Client.VerifyPassword (env : Env) (client : Client) (password : String) : Client × Bool :=
  if env.verifyPassword client.user password then (client, true)
  else ({ client with passwordAttempts := client.passwordAttempts + 1 }, false)

/-- Modelled from the spec: the method `Client::PasswordAttemptsExceeded` of
`ftp/client.cpp`, which is not part of the sources at hand. "Exceeding a configured
maximum". -/
def Client.PasswordAttemptsExceeded (env : Env) (client : Client) : Bool :=
  decide (env.maxPasswordAttempts < client.passwordAttempts)

/-- Modelled from the spec: the setter `Client::SetDataProtected` of `ftp/client.cpp`, which
is not part of the sources at hand. The "data-channel protection flag (clear | private)",
"toggled by PROT". -/
def Client.SetDataProtected (client : Client) (flag : Bool) : Client :=
  { client with dataProtected := flag }

/-- Modelled from the spec: the setter `Client::SetExtPasvMode` of `ftp/client.cpp`, which is
not part of the sources at hand. The "extended-passive-mode preference", "toggled via a
site-specific extension command". -/
def Client.SetExtPasvMode (client : Client) (mode : EPSVMode) : Client :=
  { client with extPasvMode := mode }

/-- The constructor `util::net::Endpoint(address, port)`. -/
def mkEndpoint (env : Env) (address : String) (port : Nat) : Option Endpoint :=
  (env.ipAddress address).map fun ip => ⟨ip, port⟩

end ftp

/-! ## The command handlers -/

namespace cmd

open util.net ftp

/-- A command invocation: the tokenised argument list (`args[0]` is the verb) and the raw
argument string. -/
structure Command where
  args : List String
  argStr : String
deriving DecidableEq, Repr

/-- The handler `PORTCommand::Execute`. -/
def PORTCommand.Execute (env : Env) (client : Client) (c : Command) : Client :=
  match c.args with
  | [_, arg] =>
    match boost.split (boost.is_any_of [',']) arg.toList with
    | [o0, o1, o2, o3, o4, o5] =>
      match [o0, o1, o2, o3, o4, o5].map boost.lexical_cast_int16 with
      | [some i0, some i1, some i2, some i3, some i4, some i5] =>
        if [i0, i1, i2, i3, i4, i5].any (fun v => v < 0 || v > 255) then
          client.Reply ReplyCode.SyntaxError "Invalid port string."
        else
          let port := (i4.toNat <<< 8) ||| i5.toNat
          let ip := toString i0 ++ "." ++ toString i1 ++ "." ++ toString i2 ++ "." ++ toString i3
          match mkEndpoint env ip port with
          | none => client.Reply ReplyCode.SyntaxError "Invalid port string."
          | some ep =>
            match client.DataInitialise env ep false with
            | (client, none) =>
              client.Reply ReplyCode.CantOpenDataConnection
                ("Unable to open data connection to " ++ env.endpointToString ep)
            | (client, some _) => client.Reply ReplyCode.CommandOkay "PORT command successful."
      | _ => client.Reply ReplyCode.SyntaxError "Invalid port string."
    | _ => client.Reply ReplyCode.SyntaxError "Invalid port string."
  | _ => client.Reply ReplyCode.SyntaxError "Wrong number of arguments."

/-- The handler `EPRTCommand::Execute`.  The separator is the first byte of the argument
(`args[1].substr(0, 1)`), and the argument is split where that byte occurs; the five tokens
are `fields[0]` to `fields[4]`, each the bytes between two separators. -/
def EPRTCommand.Execute (env : Env) (client : Client) (c : Command) : Client :=
  match c.args with
  | [_, arg] =>
    let delim := (util.bytes arg).take 1
    match boost.split (boost.is_any_of delim) (util.bytes arg) with
    | [_, family, address, portField, _] =>
      if family ≠ ['1'] ∧ family ≠ ['2'] then
        client.Reply ReplyCode.SyntaxError "Uknown address family."
      else
        match boost.lexical_cast_uint16 portField with
        | none => client.Reply ReplyCode.SyntaxError "Invalid port string."
        | some port =>
          match mkEndpoint env (String.mk address) port with
          | none => client.Reply ReplyCode.SyntaxError "Invalid port string."
          | some ep =>
            match client.DataInitialise env ep false with
            | (client, none) =>
              client.Reply ReplyCode.CantOpenDataConnection
                ("Unable to open data connection to " ++ env.endpointToString ep)
            | (client, some _) => client.Reply ReplyCode.CommandOkay "EPRT command successful."
    | _ => client.Reply ReplyCode.SyntaxError "Invalid port string."
  | _ => client.Reply ReplyCode.SyntaxError "Wrong number of arguments."

/-- The text `hostString` that `EPSVCommand::Execute` builds for the listener endpoint. -/
def EPSVCommand.hostString (mode : EPSVMode) (ep : Endpoint) : String :=
  let family : Nat := if ep.ip.family = Family.IPv4 then 1 else 2
  if mode = EPSVMode.EPSVFull then
    "|" ++ toString family ++ "|" ++ ep.ip.text ++ "|" ++ toString ep.port ++ "|"
  else
    "|||" ++ toString ep.port ++ "|"

/-- The handler `EPSVCommand::Execute`. -/
def EPSVCommand.Execute (env : Env) (client : Client) (c : Command) : Client :=
  if c.argStr ≠ "" then
    client.Reply ReplyCode.SyntaxError "Wrong number of arguments."
  else
    match client.DataInitialise env Endpoint.default true with
    | (client, none) =>
      client.Reply ReplyCode.CantOpenDataConnection "Unable to listen for data connection."
    | (client, some ep) =>
      client.Reply ReplyCode.ExtendedPassiveMode
        ("Entering extended passive mode (" ++
          EPSVCommand.hostString client.extPasvMode ep ++ ")")

/-- How a handler can end other than by returning: an access past the end of a vector, or an
exception that leaves the handler. -/
inductive Fault
  | OutOfBounds
  | Exception
deriving DecidableEq, Repr

/-- The access `fields[i]` of a `std::vector`: defined only below `fields.size()`. -/
def fieldAt (fields : List Int) (i : Nat) : Except Fault Int :=
  match fields.get? i with
  | some v => Except.ok v
  | none => Except.error Fault.OutOfBounds

/-- The loop of `LPRTCommand::Execute` copying `fields[2 .. addrLen + 1]` into `addr`. -/
def LPRTCommand.copyAddr (fields : List Int) : Nat → Nat → Except Fault (List Int)
  | _, 0 => Except.ok []
  | i, j + 1 =>
    match fieldAt fields i with
    | Except.error e => Except.error e
    | Except.ok v =>
      match LPRTCommand.copyAddr fields (i + 1) j with
      | Except.error e => Except.error e
      | Except.ok vs => Except.ok (v :: vs)

/-- The handler `LPRTCommand::Execute`.  It ends after building the endpoint: no call on
the data connection and no reply follow. -/
def LPRTCommand.Execute (env : Env) (client : Client) (c : Command) : Except Fault Client :=
  match c.args with
  | [_, arg] =>
    match env.splitToType arg ',' with
    | none => Except.error Fault.Exception
    | some fields =>
      if fields.length < 2 then
        Except.ok (client.Reply ReplyCode.SyntaxError "Invalid port string.")
      else if fields.any (fun f => f < 0 || f > 255) then
        Except.ok (client.Reply ReplyCode.SyntaxError "Invalid port string.")
      else
        match fieldAt fields 0 with
        | Except.error e => Except.error e
        | Except.ok family =>
          if family ≠ 4 ∧ family ≠ 6 then
            Except.ok (client.Reply ReplyCode.SyntaxError "Unsupported address family.")
          else
            match fieldAt fields 1 with
            | Except.error e => Except.error e
            | Except.ok len =>
              let addrLen := len.toNat % 2 ^ 16
              if fields.length ≠ addrLen + 5 then
                Except.ok (client.Reply ReplyCode.SyntaxError "Invalid port string.")
              else
                match fieldAt fields (addrLen + 2) with
                | Except.error e => Except.error e
                | Except.ok proto =>
                  if proto ≠ 2 then
                    Except.ok (client.Reply ReplyCode.SyntaxError "Invalid port string.")
                  else
                    match LPRTCommand.copyAddr fields 2 addrLen with
                    | Except.error e => Except.error e
                    | Except.ok addr =>
                      match fieldAt fields (addrLen + 3), fieldAt fields (addrLen + 4) with
                      | Except.ok p1, Except.ok p2 =>
                        let port := ((p1.toNat <<< 8) ||| p2.toNat) % 2 ^ 16
                        if env.rawEndpoint addr port then Except.ok client
                        else Except.error Fault.Exception
                      | Except.error e, _ => Except.error e
                      | _, Except.error e => Except.error e
  | _ => Except.ok (client.Reply ReplyCode.SyntaxError "Wrong number of arguments.")

/-- The handler `PASSCommand::Execute`. -/
def PASSCommand.Execute (env : Env) (client : Client) (c : Command) : Client :=
  if c.argStr = "" then
    client.Reply ReplyCode.SyntaxError "Wrong number of arguments."
  else
    match client.VerifyPassword env c.argStr with
    | (client, false) =>
      if client.PasswordAttemptsExceeded env then
        (client.Reply ReplyCode.NotLoggedIn
          "Password attempts exceeded, disconnecting.").SetFinished
      else
        (client.Reply ReplyCode.NotLoggedIn "Login incorrect.").SetLoggedOut
    | (client, true) =>
      (client.Reply ReplyCode.UserLoggedIn ("User " ++ client.user ++ " logged in.")).SetLoggedIn

/-- The handler `USERCommand::Execute`. -/
def USERCommand.Execute (client : Client) (c : Command) : Client :=
  if c.argStr = "" then
    client.Reply ReplyCode.SyntaxError "Wrong number of arguments."
  else if c.argStr ≠ client.user then
    client.Reply ReplyCode.NotLoggedIn ("User " ++ c.argStr ++ " access denied.")
  else
    (client.Reply ReplyCode.NeedPassword
      ("Password required for " ++ c.argStr ++ ".")).SetWaitingPassword

/-- How the copy loop of `RETRCommand::Execute` ends: a read returned `-1` and the loop was
left, or a read raised `ios_base::failure`, or a write raised a `NetworkError`. -/
inductive CopyEnd
  | EndOfFile
  | DiskFailure
  | NetworkError (message : String)
deriving DecidableEq, Repr

/-- The copy loop of `RETRCommand::Execute`: read a buffer from the file, leave the loop when
the read returns `-1`, otherwise write the buffer to the data connection and go on. -/
def RETRCommand.copy (env : Env) (client : Client) : InStream → Client × CopyEnd
  | [] => (client, CopyEnd.EndOfFile)
  | ReadResult.failure :: _ => (client, CopyEnd.DiskFailure)
  | ReadResult.chunk buffer :: fin =>
    match client.Write env buffer with
    | (client, some message) => (client, CopyEnd.NetworkError message)
    | (client, none) => RETRCommand.copy env client fin

/-- The handler `RETRCommand::Execute`. -/
def RETRCommand.Execute (env : Env) (client : Client) (c : Command) : Client :=
  if c.argStr = "" then
    client.Reply ReplyCode.SyntaxError "Wrong number of arguments."
  else
    match env.openFile c.argStr with
    | Except.error message =>
      client.Reply ReplyCode.ActionNotOkay ("Unable to open file: " ++ message)
    | Except.ok fin =>
      let client := client.Reply ReplyCode.TransferStatusOkay
        ("Opening data connection for download of " ++ env.basename c.argStr ++ ".")
      match client.DataOpen env with
      | (client, some message) =>
        client.Reply ReplyCode.CantOpenDataConnection
          ("Unable to accept data connection: " ++ message)
      | (client, none) =>
        match RETRCommand.copy env client fin with
        | (client, CopyEnd.DiskFailure) =>
          client.DataClose.Reply ReplyCode.DataCloseAborted "Error while reading from disk."
        | (client, CopyEnd.NetworkError message) =>
          client.DataClose.Reply ReplyCode.DataCloseAborted
            ("Error while writing to data connection: " ++ message)
        | (client, CopyEnd.EndOfFile) =>
          client.DataClose.Reply ReplyCode.DataClosedOkay "Transfer finished."

/-- The copy loop of `STORCommand::Execute` while `client.data.Read` returns buffers: each
buffer is written to the file `fout`. -/
def STORCommand.copy (fout : List Char) : List (List Char) → List Char
  | [] => fout
  | buffer :: rest => STORCommand.copy (fout ++ buffer) rest

/-- The handler `STORCommand::Execute`: the client, and what has been written to the
destination file (`none` when the file was not created). -/
def STORCommand.Execute (env : Env) (client : Client) (c : Command) :
    Client × Option (List Char) :=
  if c.argStr = "" then
    (client.Reply ReplyCode.SyntaxError "Wrong number of arguments.", none)
  else
    match env.createFile c.argStr with
    | some message =>
      (client.Reply ReplyCode.ActionNotOkay ("Unable to create file: " ++ message), none)
    | none =>
      let client := client.Reply ReplyCode.TransferStatusOkay
        ("Opening data connection for upload of " ++ env.basename c.argStr ++ ".")
      match client.DataOpen env with
      | (client, some message) =>
        (client.Reply ReplyCode.CantOpenDataConnection
          ("Unable to accept data connection: " ++ message), some [])
      | (client, none) =>
        let fout := STORCommand.copy [] env.incoming.chunks
        match env.incoming.ending with
        | some message =>
          (client.DataClose.Reply ReplyCode.DataCloseAborted
            ("Error while reading from data connection: " ++ message), some fout)
        | none =>
          (client.DataClose.Reply ReplyCode.DataClosedOkay "Transfer finished.", some fout)

/-- The handler `PROTCommand::Execute`. -/
def PROTCommand.Execute (client : Client) (c : Command) : Client :=
  match c.args with
  | [_, arg] =>
    if arg = "P" then
      (client.SetDataProtected true).Reply ReplyCode.CommandOkay
        "Protection type set to 'private'."
    else if arg = "C" then
      (client.SetDataProtected false).Reply ReplyCode.CommandOkay
        "Protection type set to 'clear'."
    else if arg = "S" then
      client.Reply ReplyCode.ParameterNotImplemented "Protection type 'secure' not implemented."
    else if arg = "E" then
      client.Reply ReplyCode.ParameterNotImplemented
        "Protection type 'confidential' not implemented."
    else
      client.Reply ReplyCode.SyntaxError "Unrecognised protection type."
  | _ => client.Reply ReplyCode.SyntaxError "Wrong number of arguments."

/-- The handler `RNTOCommand::Execute`. -/
def RNTOCommand.Execute (env : Env) (client : Client) (c : Command) : Client :=
  if c.argStr = "" then
    client.Reply ReplyCode.SyntaxError "Wrong number of arguments."
  else
    match env.renameFile client.renameFrom c.argStr with
    | some message => client.Reply ReplyCode.ActionNotOkay ("RNTO failed: " ++ message)
    | none => client.Reply ReplyCode.FileActionOkay "RNTO command successful."

/-- The text `syntax` of `SITECommand::Execute`. -/
def SITECommand.syntaxText : String := "Syntax: SITE EPSV normal|full"

/-- The handler `SITECommand::Execute`. With a non-empty argument string it reads `args[1]`,
which is past the end of an argument list of one token. -/
def SITECommand.Execute (client : Client) (c : Command) : Except Fault Client :=
  if c.argStr = "" then
    Except.ok (client.Reply ReplyCode.SyntaxError "Wrong number of arguments.")
  else
    match c.args with
    | _ :: arg1 :: rest =>
      let arg1 := boost.to_upper arg1
      if arg1 = "EPSV" then
        match rest with
        | [] =>
          Except.ok (client.Reply ReplyCode.CommandOkay
            ("Extended passive mode is currently '" ++
              (if client.extPasvMode = EPSVMode.EPSVNormal then "normal" else "full") ++ "'."))
        | [arg2] =>
          let arg2 := boost.to_upper arg2
          if arg2 = "NORMAL" then
            Except.ok ((client.SetExtPasvMode EPSVMode.EPSVNormal).Reply ReplyCode.SyntaxError
              "Extended passive mode now set to 'normal'.")
          else if arg2 = "FULL" then
            Except.ok ((client.SetExtPasvMode EPSVMode.EPSVFull).Reply ReplyCode.SyntaxError
              "Extended passive mode now set to 'full'.")
          else
            Except.ok (client.Reply ReplyCode.SyntaxError SITECommand.syntaxText)
        | _ => Except.ok (client.Reply ReplyCode.SyntaxError SITECommand.syntaxText)
      else
        Except.ok (client.Reply ReplyCode.CommandUnrecognised
          ("SITE " ++ arg1 ++ " command unrecognised."))
    | _ => Except.error Fault.OutOfBounds

/-- Modelled from the spec: the method `DirectoryList::Execute` of `cmd/dirlist.cpp`, which is
not part of the sources at hand. It produces "a formatted directory/file listing" and writes
it "to either the data channel (LIST/NLST) or the control channel as part of a multi-line
reply (STAT)". With the data channel as output, `some` message stands for the `NetworkError`
of the data connection that `LIST` and `NLST` catch around the call; with the control channel
as output every line is a continuation line of the reply and the call returns ("STAT never
opens a data connection"). -/
def DirectoryList.Execute (env : Env) (client : Client) (path options forced : String)
    (dataOutput : Bool) : Client × Option String :=
  let listing := env.listing path options forced
  if dataOutput then
    ({ client with data := client.data ++ listing.lines.map fun line =>
        DataCall.Write line.toList }, listing.error)
  else
    (listing.lines.foldl (fun client line => client.PartReplyText line) client, none)

/-- The handler `FEATCommand::Execute`. -/
def FEATCommand.Execute (client : Client) : Client :=
  let client := client.PartReply ReplyCode.SystemStatus "Extended feature support:"
  let client := client.PartReply ReplyCode.NoCode " AUTH TLS"
  let client := client.PartReply ReplyCode.NoCode " EPRT"
  let client := client.PartReply ReplyCode.NoCode " EPSV"
  let client := client.PartReply ReplyCode.NoCode " PBSZ"
  let client := client.PartReply ReplyCode.NoCode " PROT"
  let client := client.PartReply ReplyCode.NoCode " MDTM"
  let client := client.PartReply ReplyCode.NoCode " SIZE"
  let client := client.PartReply ReplyCode.NoCode " SIZE"
  client.Reply ReplyCode.SystemStatus "End."

/-- The handler `RNFRCommand::Execute`. -/
def RNFRCommand.Execute (env : Env) (client : Client) (c : Command) : Client :=
  if c.argStr = "" then
    client.Reply ReplyCode.SyntaxError "Wrong number of arguments."
  else
    let absolute := env.expand c.argStr
    match env.status absolute with
    | some message => client.Reply ReplyCode.ActionNotOkay ("RNFR failed: " ++ message)
    | none =>
      let client := client.PartReply ReplyCode.PendingMoreInfo absolute
      let client := client.SetRenameFrom absolute
      client.ReplyText "File exists, ready for destination name."

/-- The options and the offset that `LIST`, `NLST` and `STAT` take from `args[1]`: when it
starts with `-`, the options are the rest of it and the offset is its length. -/
def listOptions (arg1 : String) : String × Nat :=
  if arg1.toList.headD (Char.ofNat 0) == '-' then
    (String.mk (arg1.toList.drop 1), arg1.toList.length)
  else
    ("", 0)

/-- The options and the path that `LISTCommand::Execute` hands to the directory listing;
`none` stands for the `std::out_of_range` of `std::string path(argStr, optOffset)`. That
declaration sits inside the `if` block and makes a new variable `path`, which is trimmed and
dropped at the end of the block: the `path` handed on is the outer one, still `"."`. -/
def LISTCommand.arguments (c : Command) : Option (String × String) :=
  match c.args with
  | _ :: arg1 :: _ =>
    match boost.substr c.argStr.toList (listOptions arg1).2 with
    | none => none
    | some _ => some ((listOptions arg1).1, ".")
  | _ => some ("", ".")

/-- The options and the path that `NLSTCommand::Execute` hands to the directory listing;
`none` stands for the `std::out_of_range` of `argStr.substr(optOffset)`. -/
def NLSTCommand.arguments (c : Command) : Option (String × String) :=
  match c.args with
  | _ :: arg1 :: _ =>
    match boost.substr c.argStr.toList (listOptions arg1).2 with
    | none => none
    | some path => some ((listOptions arg1).1, String.mk (boost.trim path))
  | _ => some ("", ".")

/-- The handler `LISTCommand::Execute`: the client as the handler leaves it, and the fault
when it is left by an exception. -/
def LISTCommand.Execute (env : Env) (client : Client) (c : Command) : Client × Option Fault :=
  let client := client.Reply ReplyCode.TransferStatusOkay
    "Opening data connection for directory listing."
  match client.DataOpen env with
  | (client, some message) =>
    (client.Reply ReplyCode.CantOpenDataConnection
      ("Unable to accept data connection: " ++ message), none)
  | (client, none) =>
    match LISTCommand.arguments c with
    | none => (client, some Fault.Exception)
    | some (options, path) =>
      match DirectoryList.Execute env client path options "l" true with
      | (client, some message) =>
        (client.DataClose.Reply ReplyCode.DataCloseAborted
          ("Error whiling writing to data connection: " ++ message), none)
      | (client, none) =>
        (client.DataClose.Reply ReplyCode.DataClosedOkay "End of directory listing.", none)

/-- The handler `NLSTCommand::Execute`: the client as the handler leaves it, and the fault
when it is left by an exception. The `catch` block for the `NetworkError` of the listing
replies and does not return, so the closing statements of the handler follow it. -/
def NLSTCommand.Execute (env : Env) (client : Client) (c : Command) : Client × Option Fault :=
  let client := client.Reply ReplyCode.TransferStatusOkay
    "Opening data connection for directory listing."
  match client.DataOpen env with
  | (client, some message) =>
    (client.Reply ReplyCode.CantOpenDataConnection
      ("Unable to accept data connection: " ++ message), none)
  | (client, none) =>
    match NLSTCommand.arguments c with
    | none => (client, some Fault.Exception)
    | some (options, path) =>
      match DirectoryList.Execute env client path options "" true with
      | (client, some message) =>
        let client := client.Reply ReplyCode.DataCloseAborted
          ("Error whiling writing to data connection: " ++ message)
        (client.DataClose.Reply ReplyCode.DataClosedOkay "End of directory listing.", none)
      | (client, none) =>
        (client.DataClose.Reply ReplyCode.DataClosedOkay "End of directory listing.", none)

/-- The handler `STATCommand::Execute`: the client as the handler leaves it, and the fault
when it is left by an exception. There is no `try` around the call of the directory
listing. -/
def STATCommand.Execute (env : Env) (client : Client) (c : Command) : Client × Option Fault :=
  match c.args with
  | [_] =>
    let client := client.PartReply ReplyCode.SystemStatus "FTPD status:"
    let client := client.PartReplyText "< Insert status info here >"
    (client.ReplyText "End of status.", none)
  | _ :: arg1 :: _ =>
    match boost.substr c.argStr.toList (listOptions arg1).2 with
    | none => (client, some Fault.Exception)
    | some path =>
      let path := boost.trim path
      let path := String.mk (if path.isEmpty then ['.'] else path)
      let client := client.PartReply ReplyCode.DirectoryStatus ("Status of " ++ path ++ ":")
      match DirectoryList.Execute env client path (listOptions arg1).1 "l" false with
      | (client, some _) => (client, some Fault.Exception)
      | (client, none) => (client.ReplyText "End of status.", none)
  | [] => (client, some Fault.OutOfBounds)

/-- The text `hostString` that `PASVCommand::Execute` builds for the listener endpoint. -/
def PASVCommand.hostString (ep : Endpoint) : String :=
  String.mk (boost.replace_all_copy ep.ip.text.toList ['.'] [',']) ++ "," ++
    toString ((ep.port >>> 8) &&& 255) ++ "," ++ toString (ep.port &&& 255)

/-- The handler `PASVCommand::Execute`. -/
def PASVCommand.Execute (env : Env) (client : Client) (c : Command) : Client :=
  if c.argStr ≠ "" then
    client.Reply ReplyCode.SyntaxError "Wrong number of arguments."
  else
    match client.DataInitialise env Endpoint.default true with
    | (client, none) =>
      client.Reply ReplyCode.CantOpenDataConnection "Unable to listen for data connection."
    | (client, some ep) =>
      client.Reply ReplyCode.PassiveMode
        ("Entering passive mode (" ++ PASVCommand.hostString ep ++ ")")

end cmd

/-! ## The path resolver (`fs/path.cpp`) -/

namespace fs

/-- The mutable member `cache` of a path object: the counterparts computed so far. -/
structure Cache where
  virt : Option String
  real : Option String
deriving DecidableEq, Repr

/-- A freshly constructed path object has computed nothing yet. -/
def Cache.empty : Cache := ⟨none, none⟩

/-- A `fs::VirtualPath`, rooted at `/` as the client sees it. -/
structure VirtualPath where
  path : String
  cache : Cache
deriving DecidableEq, Repr

/-- A `fs::RealPath`, a path of the underlying filesystem. -/
structure RealPath where
  path : String
  cache : Cache
deriving DecidableEq, Repr

/-- The constructor `VirtualPath(str)`. -/
def VirtualPath.new (s : String) : VirtualPath := ⟨s, Cache.empty⟩

/-- The constructor `RealPath(str)`. -/
def RealPath.new (s : String) : RealPath := ⟨s, Cache.empty⟩

/-- The member `cache` of a `fs::Path`. The objects it points to are kept whole (with their
own caches), since `MakeVirtual(const Path&)` works through the real path it points to. -/
structure PathCache where
  virt : Option VirtualPath
  real : Option RealPath
deriving DecidableEq, Repr

/-- A `fs::Path` as the user wrote it. -/
structure Path where
  path : String
  cache : PathCache
deriving DecidableEq, Repr

/-- The constructor `Path(str)`. -/
def Path.new (s : String) : Path := ⟨s, ⟨none, none⟩⟩

/-- What the resolver takes from its surroundings: the configured site root
(`cfg::Get().Sitepath()`), the session's working directory (`fs::WorkDirectory()`), the path
operators `/` and `&`, `fs::Resolve`, and the helpers of `util::path`, of which `Realpath`
asks the filesystem (`none` when the path does not exist). -/
structure Env where
  Sitepath : String
  WorkDirectory : String
  append : String → String → String
  Resolve : String → String
  prepend : String → String → String
  Realpath : String → Option String
  Dirname : String → String
  Basename : String → String
  Join : String → String → String

/-- The test `!pathstr.compare(0, n, other)`: the first `n` characters of `pathstr` (fewer
when it is shorter) are exactly `other`. -/
def compareIsZero (pathstr : List Char) (n : Nat) (other : List Char) : Bool :=
  pathstr.take n == other

/-- The access `pathstr[i]` of a `const std::string`: the character at `i`, and the null
character at `i = pathstr.length()`. -/
def charAt (pathstr : List Char) (i : Nat) : Char :=
  pathstr.getD i (Char.ofNat 0)

/-- The exception `std::logic_error("RealPath cannot be made VirtualPath")`. -/
inductive LogicError
  | RealPathCannotBeMadeVirtualPath
deriving DecidableEq, Repr

/-- The function `MakeVirtual(const RealPath&)`: the virtual path, and the object with its
cache as the call leaves it. -/
def MakeVirtual (env : Env) (path : RealPath) : Except LogicError (VirtualPath × RealPath) :=
  match path.cache.virt with
  | some v => Except.ok (VirtualPath.new v, path)
  | none =>
    let sitepath := env.Sitepath.toList
    let pathstr := path.path.toList
    if compareIsZero pathstr sitepath.length sitepath &&
        (charAt pathstr sitepath.length == '/' || pathstr.length == sitepath.length) then
      let newpath := pathstr.drop sitepath.length
      let newpath := String.mk (if newpath.isEmpty then ['/'] else newpath)
      Except.ok (VirtualPath.new newpath,
        { path with cache := { path.cache with virt := some newpath } })
    else
      Except.error LogicError.RealPathCannotBeMadeVirtualPath

/-- The function `MakeReal(const Path&)`: the real path, and the object with its cache as
the call leaves it. -/
def MakeReal (env : Env) (path : Path) : RealPath × Path :=
  match path.cache.real with
  | some real => (real, path)
  | none =>
    let virt := env.Resolve (env.append env.WorkDirectory path.path)
    let p := env.prepend env.Sitepath virt
    let p :=
      match env.Realpath p with
      | some noSymlinks => noSymlinks
      | none =>
        match env.Realpath (env.Dirname p) with
        | some noSymlinks => env.Join noSymlinks (env.Basename p)
        | none => p
    (RealPath.new p, { path with cache := { path.cache with real := some (RealPath.new p) } })

/-- The function `MakeVirtual(const Path&)`: what the call yields (the virtual path, or the
`logic_error` raised on the way), and the object with its cache as the call leaves it. With
an empty `cache.virt` the call goes through `MakeReal(path)`, which fills `cache.real`, and
through `MakeVirtual` on the real path that `cache.real` points to, which fills that
object's cache; `path.cache.virt` itself is not assigned. -/
def MakeVirtualOfPath (env : Env) (path : Path) : Except LogicError VirtualPath × Path :=
  match path.cache.virt with
  | some virt => (Except.ok virt, path)
  | none =>
    match MakeReal env path with
    | (real, path) =>
      match MakeVirtual env real with
      | Except.error e => (Except.error e, path)
      | Except.ok (virt, real) =>
        (Except.ok virt, { path with cache := { path.cache with real := some real } })

/-- The function `MakeReal(const VirtualPath&)`. -/
def MakeRealOfVirtual (env : Env) (path : VirtualPath) : RealPath × VirtualPath :=
  match path.cache.real with
  | some r => (RealPath.new r, path)
  | none =>
    let p := env.prepend env.Sitepath path.path
    (RealPath.new p, { path with cache := { path.cache with real := some p } })

end fs

/-! ## Specification vocabulary -/

namespace spec

/-- A non-empty run of decimal digits and the number it denotes. -/
def unsignedDecimal (s : List Char) : Option Nat :=
  match s with
  | [] => none
  | _ :: _ => boost.readDigits s 0

/-- A decimal integer: an optional sign followed by at least one decimal digit, and the
integer it denotes; `none` for any other string. -/
def decimalInteger (s : List Char) : Option Int :=
  match s with
  | [] => none
  | c :: rest =>
    if c = '-' then (unsignedDecimal rest).map fun n => -(n : Int)
    else if c = '+' then (unsignedDecimal rest).map fun n => (n : Int)
    else (unsignedDecimal s).map fun n => (n : Int)

/-- The field is a decimal integer that lies within `0..255`. -/
def isByteField (s : List Char) : Bool :=
  match decimalInteger s with
  | some v => decide (0 ≤ v ∧ v ≤ 255)
  | none => false

/-- The dotted quad `h1.h2.h3.h4`, each octet in decimal. -/
def dottedQuad (h1 h2 h3 h4 : Nat) : String :=
  toString h1 ++ "." ++ toString h2 ++ "." ++ toString h3 ++ "." ++ toString h4

/-- The fields of an `LPRT` argument deviate from the format family (4 or 6), address length
`N`, `N` address bytes, protocol byte 2, two port bytes: fewer than 2 fields, a field outside
`0..255`, a family that is neither 4 nor 6, a field count other than `N + 5`, or a field
`N + 2` other than 2 (`N` is field 1). -/
def lprtDeviates (fields : List Int) : Prop :=
  fields.length < 2 ∨
  (∃ f ∈ fields, f < 0 ∨ 255 < f) ∨
  (fields.getD 0 0 ≠ 4 ∧ fields.getD 0 0 ≠ 6) ∨
  fields.length ≠ (fields.getD 1 0).toNat + 5 ∨
  fields.getD ((fields.getD 1 0).toNat + 2) 0 ≠ 2

/-- The real path `p` is the site root `s` itself or lies below it: `p` equals `s`, or `p`
begins with `s` followed by `/`. -/
def underSiteRoot (s p : String) : Prop :=
  p = s ∨ (s.toList ++ ['/']).isPrefixOf p.toList = true

instance (s p : String) : Decidable (underSiteRoot s p) := by
  unfold underSiteRoot
  infer_instance

/-- The real path `p` with the leading site root `s` removed, `/` when nothing remains. -/
def stripSiteRoot (s p : String) : String :=
  if p.toList.drop s.length = [] then "/" else String.mk (p.toList.drop s.length)

end spec

/-! ## Sample surroundings, for evaluating the handlers on concrete command lines -/

namespace sample

open util.net ftp

/-- Surroundings in which every address is taken as an IPv4 address, the data connection can
always be set up (a listener opens on `127.0.0.1:50000`), and `SplitToType` converts every
field with `lexical_cast<int16_t>`, the conversion `PORT` applies to its fields, and raises
on a field that does not convert. -/
def env : ftp.Env where
  ipAddress := fun s => some ⟨Family.IPv4, s⟩
  dataInitialise := fun ep passive =>
    some (if passive then ⟨⟨Family.IPv4, "127.0.0.1"⟩, 50000⟩ else ep)
  endpointToString := fun ep => ep.ip.text ++ ":" ++ toString ep.port
  splitToType := fun s sep =>
    ((boost.split (fun c => c == sep) s.toList).map boost.lexical_cast_int16).foldr
      (fun f acc => match f, acc with
        | some v, some vs => some (v :: vs)
        | _, _ => none)
      (some [])
  rawEndpoint := fun _ _ => true
  verifyPassword := fun user password => user == "alice" && password == "secret"
  maxPasswordAttempts := 3
  basename := fun path => String.mk ((boost.split (fun c => c == '/') path.toList).getLastD [])
  openFile := fun path =>
    if path = "hello.txt" then
      Except.ok [ReadResult.chunk "hello, ".toList, ReadResult.chunk "world".toList]
    else Except.error "No such file or directory"
  createFile := fun path => if path = "" then some "Is a directory" else none
  dataOpen := none
  dataWrite := fun _ _ => none
  incoming := ⟨["up".toList, "load".toList], none⟩
  renameFile := fun source _ => if source = "" then some "No such file or directory" else none
  listing := fun path _ _ =>
    if path = "." then ⟨["pub"], none⟩
    else if path = "/pub" then ⟨["readme.txt"], none⟩
    else ⟨[], some "Connection reset by peer"⟩
  expand := fun path => if path.toList.head? = some '/' then path else "/" ++ path
  status := fun path => if path = "/old.txt" then none else some "No such file or directory"

/-- A client that has sent nothing and has no data connection. -/
def client : Client := { control := [], data := [], extPasvMode := EPSVMode.EPSVNormal }

/-- Modelled from the spec: the path operator `/` of `WorkDirectory() / path`, which is not
part of the sources at hand. "Join the working directory (if the input is relative) with the
input": an input starting with `/` stands for itself. -/
def append (workdir path : String) : String :=
  if path.toList.head? = some '/' then path else workdir ++ "/" ++ path

/-- Modelled from the spec: the segment walk of `fs::Resolve`, which is not part of the
sources at hand. Empty segments and `.` are skipped and `..` drops the last segment kept so
far, so that it "can never walk above virtual root". -/
def normalizeSegments : List (List Char) → List (List Char) → List (List Char)
  | kept, [] => kept.reverse
  | kept, seg :: rest =>
    if seg = [] ∨ seg = ['.'] then normalizeSegments kept rest
    else if seg = ['.', '.'] then normalizeSegments kept.tail rest
    else normalizeSegments (seg :: kept) rest

/-- Modelled from the spec: the function `fs::Resolve`, which is not part of the sources at
hand. "Normalize `.`/`..`/`//` segments entirely inside the virtual namespace". -/
def Resolve (path : String) : String :=
  String.mk ('/' :: List.intercalate ['/']
    (normalizeSegments [] (boost.split (fun c => c == '/') path.toList)))

/-- Modelled from the spec: the path operator `&` of `RealPath(Sitepath()) & virt`, which is
not part of the sources at hand. "Then prepend the site root". -/
def prepend (sitepath virt : String) : String := sitepath ++ virt

/-- Modelled from the spec: the helper `util::path::Dirname`, which is not part of the sources
at hand: the path of "the existing ancestor directory", all that precedes the last `/`. -/
def Dirname (path : String) : String :=
  String.mk (List.intercalate ['/'] (boost.split (fun c => c == '/') path.toList).dropLast)

/-- Modelled from the spec: the helper `util::path::Basename`, which is not part of the
sources at hand: "the leaf", all that follows the last `/`. -/
def Basename (path : String) : String :=
  String.mk ((boost.split (fun c => c == '/') path.toList).getLastD [])

/-- Modelled from the spec: the helper `util::path::Join`, which is not part of the sources at
hand: the leaf put back under its resolved directory. -/
def Join (dir leaf : String) : String := dir ++ "/" ++ leaf

/-- A filesystem in which the site root `/site` holds the directory `pub` and the symbolic
link `link`, which points to the directory `/etc` outside the site root. -/
def Realpath (path : String) : Option String :=
  if path = "/site" ∨ path = "/site/" then some "/site"
  else if path = "/site/pub" then some "/site/pub"
  else if path = "/site/link" then some "/etc"
  else if path = "/etc" then some "/etc"
  else none

/-- The resolver's surroundings: site root `/site`, working directory `/`, and the sample
filesystem. -/
def fsEnv : fs.Env where
  Sitepath := "/site"
  WorkDirectory := "/"
  append := append
  Resolve := Resolve
  prepend := prepend
  Realpath := Realpath
  Dirname := Dirname
  Basename := Basename
  Join := Join

end sample

namespace spec

/-- The characters written to the data connection by the calls of a log, in order. -/
def written : List ftp.DataCall → List Char
  | [] => []
  | ftp.DataCall.Write buffer :: rest => buffer ++ written rest
  | _ :: rest => written rest

end spec

namespace spec

/-- A normalized virtual path: one that normalization leaves as it is. It is rooted at `/`
and has no empty, `.` or `..` segment. -/
def isNormalized (v : String) : Prop := sample.Resolve v = v

instance (v : String) : Decidable (isNormalized v) := by
  unfold isNormalized
  infer_instance

end spec

namespace spec

/-- The options and the path of a listing command as the commands are described: the options
are the first token without its leading `-` when it starts with `-`, and the path is the
remainder of the argument string after that token, trimmed of white space; the path is `.`
only when no argument is given. -/
def listingArguments (c : cmd.Command) : String × String :=
  match c.args with
  | _ :: token :: _ =>
    if token.toList.head? = some '-' then
      (String.mk (token.toList.drop 1),
        String.mk (boost.trim (c.argStr.toList.drop token.toList.length)))
    else
      ("", String.mk (boost.trim c.argStr.toList))
  | _ => ("", ".")

/-- The host string `n1,n2,...` of a list of numbers: their decimal forms, separated by
commas. -/
def commaList : List Nat → List Char
  | [] => []
  | [n] => (toString n).toList
  | n :: rest => (toString n).toList ++ ',' :: commaList rest

end spec

namespace spec

/-- The decimal form of `n` converts back to `n` with `lexical_cast<int16_t>`, and holds
neither a comma nor a dot. -/
def byteReprOk (n : Nat) : Bool :=
  (boost.lexical_cast_int16 (toString n).toList == some (n : Int)) &&
    (toString n).toList.all (fun c => c != ',' && c != '.')

end spec

/-! ## Theorems -/

open util.net ftp cmd fs

/-! ### `lexical_cast` against the plain reading of "decimal integer" -/

theorem boost.lcast_ret_unsigned_eq (max : Nat) (s : List Char) :
    boost.lcast_ret_unsigned max s =
      (spec.unsignedDecimal s).bind fun v => if v ≤ max then some v else none := by
  cases s with
  | nil => rfl
  | cons c cs =>
    simp only [boost.lcast_ret_unsigned, spec.unsignedDecimal]
    cases boost.readDigits (c :: cs) 0 <;> rfl

/-- The conversion to `int16_t` succeeds exactly on the decimal integers that fit the type,
and yields their value. -/
theorem boost.lexical_cast_int16_eq_some (s : List Char) (v : Int) :
    boost.lexical_cast_int16 s = some v ↔
      spec.decimalInteger s = some v ∧ -32768 ≤ v ∧ v ≤ 32767 := by
  cases s with
  | nil => simp [boost.lexical_cast_int16, spec.decimalInteger]
  | cons c rest =>
    simp only [boost.lexical_cast_int16, spec.decimalInteger, boost.lcast_ret_unsigned_eq]
    by_cases hm : c = '-'
    · subst hm
      cases h : spec.unsignedDecimal rest with
      | none => simp [h]
      | some n =>
        by_cases h1 : n ≤ 65535 <;> by_cases h2 : n ≤ 32768 <;>
          simp [h, h1, h2] <;> intros <;> omega
    · by_cases hp : c = '+'
      · subst hp
        cases h : spec.unsignedDecimal rest with
        | none => simp [h]
        | some n =>
          by_cases h1 : n ≤ 65535 <;> by_cases h2 : n ≤ 32767 <;>
            simp [h, h1, h2] <;> intros <;> omega
      · cases h : spec.unsignedDecimal (c :: rest) with
        | none => simp [hm, hp, h]
        | some n =>
          by_cases h1 : n ≤ 65535 <;> by_cases h2 : n ≤ 32767 <;>
            simp [hm, hp, h, h1, h2] <;> intros <;> omega

theorem spec.isByteField_of_lexical_cast (s : List Char) (v : Int)
    (h : boost.lexical_cast_int16 s = some v) (h0 : 0 ≤ v) (h1 : v ≤ 255) :
    spec.isByteField s = true := by
  have hd := ((boost.lexical_cast_int16_eq_some s v).1 h).1
  simp [spec.isByteField, hd, h0, h1]

theorem spec.lexical_cast_of_decimalInteger (s : List Char) (n : Nat)
    (h : spec.decimalInteger s = some (n : Int)) (hn : n ≤ 255) :
    boost.lexical_cast_int16 s = some (n : Int) :=
  (boost.lexical_cast_int16_eq_some s n).2 ⟨h, by omega, by omega⟩

/-- The port assembly `(p1 << 8) | p2` is `p1 * 256 + p2` when `p2` is a byte. -/
theorem boost.shift_or_eq (p1 p2 : Nat) (h : p2 ≤ 255) : (p1 <<< 8) ||| p2 = p1 * 256 + p2 := by
  have := Nat.mul_add_lt_is_or (show p2 < 2 ^ 8 by omega) p1
  rw [Nat.shiftLeft_eq, Nat.mul_comm]
  omega

theorem ftp.Client.Reply_ne (client : Client) (code : ReplyCode) (text : String) :
    client.Reply code text ≠ client := by
  intro h
  have := congrArg Client.control h
  simp [Client.Reply] at this

/-! ### `PORT` -/

/-- C1: when the `PORT` argument does not split at its commas into exactly six fields, or one
of the fields is not a decimal integer within `0..255`, `PORTCommand::Execute` does nothing
but send one `SyntaxError` reply: the control channel gains exactly that reply and no call is
made on the data connection. -/
theorem PORT_malformed_is_syntax_error (env : ftp.Env) (client : Client) (c : Command)
    (verb arg : String) (hargs : c.args = [verb, arg])
    (hbad : (boost.split (boost.is_any_of [',']) arg.toList).length ≠ 6 ∨
      ∃ f ∈ boost.split (boost.is_any_of [',']) arg.toList, spec.isByteField f = false) :
    ∃ text,
      PORTCommand.Execute env client c = client.Reply ReplyCode.SyntaxError text ∧
      (PORTCommand.Execute env client c).control =
        client.control ++ [(ReplyCode.SyntaxError, text)] ∧
      (PORTCommand.Execute env client c).data = client.data := by
  unfold PORTCommand.Execute
  rw [hargs]
  dsimp only
  split
  · rename_i o0 o1 o2 o3 o4 o5 hs
    split
    · rename_i i0 i1 i2 i3 i4 i5 hmap
      split
      · exact ⟨_, rfl, rfl, rfl⟩
      · rename_i hany
        exfalso
        simp only [List.map_cons, List.map_nil, List.cons.injEq, and_true] at hmap
        obtain ⟨e0, e1, e2, e3, e4, e5⟩ := hmap
        simp only [List.any_cons, List.any_nil, Bool.or_false, Bool.or_eq_true,
          decide_eq_true_eq, not_or, not_lt] at hany
        obtain ⟨⟨a0, b0⟩, ⟨a1, b1⟩, ⟨a2, b2⟩, ⟨a3, b3⟩, ⟨a4, b4⟩, a5, b5⟩ := hany
        rw [hs] at hbad
        rcases hbad with hlen | ⟨f, hf, hb⟩
        · exact hlen rfl
        · simp only [List.mem_cons, List.mem_singleton, List.not_mem_nil, or_false] at hf
          rcases hf with rfl | rfl | rfl | rfl | rfl | rfl
          · rw [spec.isByteField_of_lexical_cast _ _ e0 a0 b0] at hb; cases hb
          · rw [spec.isByteField_of_lexical_cast _ _ e1 a1 b1] at hb; cases hb
          · rw [spec.isByteField_of_lexical_cast _ _ e2 a2 b2] at hb; cases hb
          · rw [spec.isByteField_of_lexical_cast _ _ e3 a3 b3] at hb; cases hb
          · rw [spec.isByteField_of_lexical_cast _ _ e4 a4 b4] at hb; cases hb
          · rw [spec.isByteField_of_lexical_cast _ _ e5 a5 b5] at hb; cases hb
    · exact ⟨_, rfl, rfl, rfl⟩
  · exact ⟨_, rfl, rfl, rfl⟩

/-- The command line `PORT 300,1,1,1,1,1`: the first field is outside `0..255`, so the only
effect is one `SyntaxError` reply. -/
theorem PORT_malformed_is_syntax_error_witness :
    ∃ text,
      PORTCommand.Execute sample.env sample.client
          ⟨["PORT", "300,1,1,1,1,1"], "300,1,1,1,1,1"⟩ =
        sample.client.Reply ReplyCode.SyntaxError text ∧
      (PORTCommand.Execute sample.env sample.client
          ⟨["PORT", "300,1,1,1,1,1"], "300,1,1,1,1,1"⟩).control =
        sample.client.control ++ [(ReplyCode.SyntaxError, text)] ∧
      (PORTCommand.Execute sample.env sample.client
          ⟨["PORT", "300,1,1,1,1,1"], "300,1,1,1,1,1"⟩).data = sample.client.data :=
  PORT_malformed_is_syntax_error sample.env sample.client _ "PORT" "300,1,1,1,1,1" rfl
    (Or.inr ⟨"300".toList, by decide, by decide⟩)

/-- C2: when the `PORT` argument splits into six fields that are decimal integers `h1`, `h2`,
`h3`, `h4`, `p1`, `p2` within `0..255` (and the `Endpoint` constructor takes the dotted quad
`h1.h2.h3.h4` as an address), `PORTCommand::Execute` calls `DataInitialise` exactly once, in
active mode, with that address and the port `p1 * 256 + p2`, which is at most `65535`; it
then replies `CommandOkay` if the call succeeded and `CantOpenDataConnection` if it raised a
network error. -/
theorem PORT_wellformed_initialises_active (env : ftp.Env) (client : Client) (c : Command)
    (verb arg : String) (f1 f2 f3 f4 f5 f6 : List Char) (h1 h2 h3 h4 p1 p2 : Nat)
    (ip : IPAddress)
    (hargs : c.args = [verb, arg])
    (hsplit : boost.split (boost.is_any_of [',']) arg.toList = [f1, f2, f3, f4, f5, f6])
    (hf1 : spec.decimalInteger f1 = some (h1 : Int)) (hb1 : h1 ≤ 255)
    (hf2 : spec.decimalInteger f2 = some (h2 : Int)) (hb2 : h2 ≤ 255)
    (hf3 : spec.decimalInteger f3 = some (h3 : Int)) (hb3 : h3 ≤ 255)
    (hf4 : spec.decimalInteger f4 = some (h4 : Int)) (hb4 : h4 ≤ 255)
    (hf5 : spec.decimalInteger f5 = some (p1 : Int)) (hb5 : p1 ≤ 255)
    (hf6 : spec.decimalInteger f6 = some (p2 : Int)) (hb6 : p2 ≤ 255)
    (hip : env.ipAddress (spec.dottedQuad h1 h2 h3 h4) = some ip) :
    p1 * 256 + p2 ≤ 65535 ∧
    (PORTCommand.Execute env client c).data =
      client.data ++ [DataCall.DataInitialise ⟨ip, p1 * 256 + p2⟩ false] ∧
    (env.dataInitialise ⟨ip, p1 * 256 + p2⟩ false ≠ none →
      (PORTCommand.Execute env client c).control =
        client.control ++ [(ReplyCode.CommandOkay, "PORT command successful.")]) ∧
    (env.dataInitialise ⟨ip, p1 * 256 + p2⟩ false = none →
      ∃ text, (PORTCommand.Execute env client c).control =
        client.control ++ [(ReplyCode.CantOpenDataConnection, text)]) := by
  have e1 := spec.lexical_cast_of_decimalInteger f1 h1 hf1 hb1
  have e2 := spec.lexical_cast_of_decimalInteger f2 h2 hf2 hb2
  have e3 := spec.lexical_cast_of_decimalInteger f3 h3 hf3 hb3
  have e4 := spec.lexical_cast_of_decimalInteger f4 h4 hf4 hb4
  have e5 := spec.lexical_cast_of_decimalInteger f5 p1 hf5 hb5
  have e6 := spec.lexical_cast_of_decimalInteger f6 p2 hf6 hb6
  have hrange : [(h1 : Int), h2, h3, h4, p1, p2].any (fun v => v < 0 || v > 255) = false := by
    simp only [List.any_cons, List.any_nil, Bool.or_false, Bool.or_eq_false_iff,
      decide_eq_false_iff_not, not_lt]
    omega
  have hip2 : mkEndpoint env
      (toString (h1 : Int) ++ "." ++ toString (h2 : Int) ++ "." ++ toString (h3 : Int) ++ "." ++
        toString (h4 : Int)) (((p1 : Int).toNat <<< 8) ||| (p2 : Int).toNat) =
      some ⟨ip, p1 * 256 + p2⟩ := by
    have : (toString (h1 : Int) ++ "." ++ toString (h2 : Int) ++ "." ++ toString (h3 : Int) ++
        "." ++ toString (h4 : Int)) = spec.dottedQuad h1 h2 h3 h4 := rfl
    rw [this, Int.toNat_natCast, Int.toNat_natCast, boost.shift_or_eq p1 p2 hb6]
    simp [mkEndpoint, hip]
  refine ⟨by omega, ?_⟩
  unfold PORTCommand.Execute
  rw [hargs]
  simp only [hsplit, List.map_cons, List.map_nil, e1, e2, e3, e4, e5, e6, hrange, hip2,
    Client.DataInitialise, Bool.false_eq_true, if_false]
  cases hd : env.dataInitialise ⟨ip, p1 * 256 + p2⟩ false with
  | none => simp [Client.Reply]
  | some ep => simp [Client.Reply]

/-- The command line `PORT 10,1,1,1,4,1` sets up an active connection to `10.1.1.1`, port
`4 * 256 + 1`. -/
theorem PORT_wellformed_initialises_active_witness :
    4 * 256 + 1 ≤ 65535 ∧
    (PORTCommand.Execute sample.env sample.client
        ⟨["PORT", "10,1,1,1,4,1"], "10,1,1,1,4,1"⟩).data =
      sample.client.data ++
        [DataCall.DataInitialise ⟨⟨Family.IPv4, "10.1.1.1"⟩, 4 * 256 + 1⟩ false] ∧
    (sample.env.dataInitialise ⟨⟨Family.IPv4, "10.1.1.1"⟩, 4 * 256 + 1⟩ false ≠ none →
      (PORTCommand.Execute sample.env sample.client
          ⟨["PORT", "10,1,1,1,4,1"], "10,1,1,1,4,1"⟩).control =
        sample.client.control ++ [(ReplyCode.CommandOkay, "PORT command successful.")]) ∧
    (sample.env.dataInitialise ⟨⟨Family.IPv4, "10.1.1.1"⟩, 4 * 256 + 1⟩ false = none →
      ∃ text, (PORTCommand.Execute sample.env sample.client
          ⟨["PORT", "10,1,1,1,4,1"], "10,1,1,1,4,1"⟩).control =
        sample.client.control ++ [(ReplyCode.CantOpenDataConnection, text)]) :=
  PORT_wellformed_initialises_active sample.env sample.client _ "PORT" "10,1,1,1,4,1"
    "10".toList "1".toList "1".toList "1".toList "4".toList "1".toList 10 1 1 1 4 1
    ⟨Family.IPv4, "10.1.1.1"⟩ rfl (by decide)
    (by decide) (by decide) (by decide) (by decide) (by decide) (by decide)
    (by decide) (by decide) (by decide) (by decide) (by decide) (by decide) (by decide)

/-! ### `EPRT` -/

/-- An input with `k` separator characters splits into `k + 1` tokens. -/
theorem boost.length_split (pred : Char → Bool) (s : List Char) :
    (boost.split pred s).length = (s.filter pred).length + 1 := by
  induction s with
  | nil => rfl
  | cons c cs ih =>
    by_cases hc : pred c = true
    · simp [boost.split, hc, ih]
    · cases hs : boost.split pred cs with
      | nil => simp [hs] at ih
      | cons t ts =>
        rw [hs] at ih
        simp only [List.length_cons] at ih
        simp [boost.split, hc, hs, ih]

/-- What `EPRTCommand::Execute` does reject: an argument that does not hold exactly four
separator bytes, a family field other than `1` and `2`, and a port field that
`lexical_cast<uint16_t>` refuses each end in one `SyntaxError` reply and no call on the data
connection. -/
theorem EPRT_rejected_is_syntax_error (env : ftp.Env) (client : Client) (c : Command)
    (verb arg : String) (hargs : c.args = [verb, arg])
    (hbad : ((util.bytes arg).filter (boost.is_any_of ((util.bytes arg).take 1))).length ≠ 4 ∨
      ∃ f0 family address portField f4,
        boost.split (boost.is_any_of ((util.bytes arg).take 1)) (util.bytes arg) =
          [f0, family, address, portField, f4] ∧
        ((family ≠ ['1'] ∧ family ≠ ['2']) ∨ boost.lexical_cast_uint16 portField = none)) :
    ∃ text, EPRTCommand.Execute env client c = client.Reply ReplyCode.SyntaxError text := by
  unfold EPRTCommand.Execute
  rw [hargs]
  dsimp only
  split
  · rename_i f0 family address portField f4 hs
    rcases hbad with hcount | ⟨g0, gfam, gaddr, gport, g4, hg, hbad⟩
    · exfalso
      have hl := boost.length_split (boost.is_any_of ((util.bytes arg).take 1))
        (util.bytes arg)
      rw [hs] at hl
      simp only [List.length_cons, List.length_nil] at hl
      omega
    · rw [hs] at hg
      simp only [List.cons.injEq, and_true] at hg
      obtain ⟨-, rfl, -, rfl, -⟩ := hg
      rcases hbad with hfam | hport
      · rw [if_pos hfam]
        exact ⟨_, rfl⟩
      · rw [hport]
        split <;> exact ⟨_, rfl⟩
  · exact ⟨_, rfl⟩

/-- C3: the command line `EPRT |1|192.168.1.1|99999|` is answered with `SyntaxError`, but a
port field that is not an integer of `0..65535` is not always refused:
`lexical_cast<uint16_t>` reads `-1` as `65535`, and on `EPRT |1|192.168.1.1|-1|` the handler
calls `DataInitialise` for port `65535` and replies `CommandOkay`. -/
theorem EPRT_negative_port_is_accepted :
    EPRTCommand.Execute sample.env sample.client
        ⟨["EPRT", "|1|192.168.1.1|99999|"], "|1|192.168.1.1|99999|"⟩ =
      sample.client.Reply ReplyCode.SyntaxError "Invalid port string." ∧
    boost.lexical_cast_uint16 "-1".toList = some 65535 ∧
    EPRTCommand.Execute sample.env sample.client
        ⟨["EPRT", "|1|192.168.1.1|-1|"], "|1|192.168.1.1|-1|"⟩ =
      { control := [(ReplyCode.CommandOkay, "EPRT command successful.")],
        data := [DataCall.DataInitialise ⟨⟨Family.IPv4, "192.168.1.1"⟩, 65535⟩ false],
        extPasvMode := EPSVMode.EPSVNormal } := by
  decide

/-- C4: text after the fourth delimiter is not refused: `|1|192.168.1.1|80|junk` splits into
five fields, the last of which the handler never looks at, so `EPRTCommand::Execute` calls
`DataInitialise` for `192.168.1.1`, port `80`, and replies `CommandOkay`. -/
theorem EPRT_trailing_text_is_accepted :
    boost.split (boost.is_any_of ['|']) "|1|192.168.1.1|80|junk".toList =
      ["".toList, "1".toList, "192.168.1.1".toList, "80".toList, "junk".toList] ∧
    EPRTCommand.Execute sample.env sample.client
        ⟨["EPRT", "|1|192.168.1.1|80|junk"], "|1|192.168.1.1|80|junk"⟩ =
      { control := [(ReplyCode.CommandOkay, "EPRT command successful.")],
        data := [DataCall.DataInitialise ⟨⟨Family.IPv4, "192.168.1.1"⟩, 80⟩ false],
        extPasvMode := EPSVMode.EPSVNormal } := by
  decide

/-! ### `LPRT` -/

theorem cmd.fieldAt_of_lt (fields : List Int) (i : Nat) (h : i < fields.length) :
    fieldAt fields i = Except.ok (fields.getD i 0) := by
  simp [fieldAt, List.getD, List.get?_eq_getElem?, List.getElem?_eq_getElem h]

theorem cmd.LPRTCommand.copyAddr_in_bounds (fields : List Int) (j i : Nat)
    (h : i + j ≤ fields.length) : ∃ addr, LPRTCommand.copyAddr fields i j = Except.ok addr := by
  induction j generalizing i with
  | zero => exact ⟨[], rfl⟩
  | succ j ih =>
    obtain ⟨vs, hvs⟩ := ih (i + 1) (by omega)
    simp only [LPRTCommand.copyAddr, cmd.fieldAt_of_lt fields i (by omega), hvs]
    exact ⟨_, rfl⟩

/-- For the fields that `SplitToType` returns for an `LPRT` argument,
`LPRTCommand::Execute` replies `SyntaxError` exactly when the fields deviate from the format
(fewer than 2 fields, a field outside `0..255`, a family other than 4 and 6, a field count
other than `N + 5`, or a field `N + 2` other than 2); and on no input at all does the handler
read the field list past its end. -/
theorem LPRT_syntax_error_iff_deviates (env : ftp.Env) (client : Client) (c : Command) :
    (∀ verb arg fields, c.args = [verb, arg] → env.splitToType arg ',' = some fields →
      ((∃ text, LPRTCommand.Execute env client c =
          Except.ok (client.Reply ReplyCode.SyntaxError text)) ↔ spec.lprtDeviates fields)) ∧
    LPRTCommand.Execute env client c ≠ Except.error Fault.OutOfBounds := by
  have main : ∀ verb arg fields, c.args = [verb, arg] → env.splitToType arg ',' = some fields →
      (((∃ text, LPRTCommand.Execute env client c =
          Except.ok (client.Reply ReplyCode.SyntaxError text)) ↔ spec.lprtDeviates fields) ∧
        LPRTCommand.Execute env client c ≠ Except.error Fault.OutOfBounds) := by
    intro verb arg fields hargs hsplit
    unfold LPRTCommand.Execute
    rw [hargs]
    simp only [hsplit]
    by_cases hlen : fields.length < 2
    · simp only [hlen, if_true]
      exact ⟨⟨fun _ => Or.inl hlen, fun _ => ⟨_, rfl⟩⟩, by simp⟩
    simp only [hlen, if_false]
    by_cases hany : fields.any (fun f => f < 0 || f > 255) = true
    · simp only [hany, if_true]
      refine ⟨⟨fun _ => Or.inr (Or.inl ?_), fun _ => ⟨_, rfl⟩⟩, by simp⟩
      simpa using hany
    simp only [hany, Bool.false_eq_true, if_false]
    have hall : ∀ f ∈ fields, 0 ≤ f ∧ f ≤ 255 := by
      intro f hf
      by_contra hcon
      apply hany
      simp only [List.any_eq_true, Bool.or_eq_true, decide_eq_true_eq]
      exact ⟨f, hf, by omega⟩
    have hnotany : ¬ ∃ f ∈ fields, f < 0 ∨ 255 < f := by
      rintro ⟨f, hf, hb⟩
      have := hall f hf
      omega
    rw [cmd.fieldAt_of_lt fields 0 (by omega), cmd.fieldAt_of_lt fields 1 (by omega)]
    dsimp only
    by_cases hfam : fields.getD 0 0 ≠ 4 ∧ fields.getD 0 0 ≠ 6
    · rw [if_pos hfam]
      exact ⟨⟨fun _ => Or.inr (Or.inr (Or.inl hfam)), fun _ => ⟨_, rfl⟩⟩, by simp⟩
    rw [if_neg hfam]
    have hN : 0 ≤ fields.getD 1 0 ∧ fields.getD 1 0 ≤ 255 := by
      apply hall
      simp [List.getD, List.getElem?_eq_getElem (show 1 < fields.length by omega)]
    have hmod : (fields.getD 1 0).toNat % 2 ^ 16 = (fields.getD 1 0).toNat := by
      apply Nat.mod_eq_of_lt
      omega
    rw [hmod]
    by_cases hcount : fields.length ≠ (fields.getD 1 0).toNat + 5
    · rw [if_pos hcount]
      exact ⟨⟨fun _ => Or.inr (Or.inr (Or.inr (Or.inl hcount))), fun _ => ⟨_, rfl⟩⟩, by simp⟩
    rw [if_neg hcount]
    have hcount2 : fields.length = (fields.getD 1 0).toNat + 5 := by
      by_contra hne
      exact hcount hne
    rw [cmd.fieldAt_of_lt fields _ (by omega)]
    dsimp only
    by_cases hproto : fields.getD ((fields.getD 1 0).toNat + 2) 0 ≠ 2
    · rw [if_pos hproto]
      exact ⟨⟨fun _ => Or.inr (Or.inr (Or.inr (Or.inr hproto))), fun _ => ⟨_, rfl⟩⟩, by simp⟩
    rw [if_neg hproto]
    obtain ⟨addr, haddr⟩ := cmd.LPRTCommand.copyAddr_in_bounds fields (fields.getD 1 0).toNat 2
      (by omega)
    rw [haddr, cmd.fieldAt_of_lt fields _ (show (fields.getD 1 0).toNat + 3 < fields.length by omega),
      cmd.fieldAt_of_lt fields _ (show (fields.getD 1 0).toNat + 4 < fields.length by omega)]
    dsimp only
    have hnot : ¬ spec.lprtDeviates fields := by
      rintro (h | h | h | h | h)
      · exact hlen h
      · exact hnotany h
      · exact hfam h
      · exact hcount h
      · exact hproto h
    cases env.rawEndpoint addr _ with
    | true =>
      simp only [if_true]
      refine ⟨⟨?_, fun h => absurd h hnot⟩, by simp⟩
      rintro ⟨text, h⟩
      injection h with h
      exact absurd h.symm (ftp.Client.Reply_ne client _ text)
    | false =>
      simp only [Bool.false_eq_true, if_false]
      refine ⟨⟨?_, fun h => absurd h hnot⟩, by simp⟩
      rintro ⟨text, h⟩
      cases h
  refine ⟨fun verb arg fields h1 h2 => (main verb arg fields h1 h2).1, ?_⟩
  unfold LPRTCommand.Execute
  split
  · rename_i verb arg hargs
    cases hsplit : env.splitToType arg ',' with
    | none => simp
    | some fields =>
      have := (main verb arg fields hargs hsplit).2
      unfold LPRTCommand.Execute at this
      rw [hargs] at this
      simpa only [hsplit] using this
  · simp

/-- The fields `6,1,1,2,3` (one address byte announced, one field too few) deviate from the
format and are answered with `SyntaxError`. -/
theorem LPRT_syntax_error_iff_deviates_witness :
    spec.lprtDeviates [6, 1, 1, 2, 3] ∧
    ((∃ text, LPRTCommand.Execute sample.env sample.client
        ⟨["LPRT", "6,1,1,2,3"], "6,1,1,2,3"⟩ =
          Except.ok (sample.client.Reply ReplyCode.SyntaxError text)) ↔
      spec.lprtDeviates [6, 1, 1, 2, 3]) :=
  ⟨by simp [spec.lprtDeviates],
    (LPRT_syntax_error_iff_deviates sample.env sample.client
      ⟨["LPRT", "6,1,1,2,3"], "6,1,1,2,3"⟩).1 "LPRT" "6,1,1,2,3" [6, 1, 1, 2, 3] rfl
      (by decide)⟩

/-- Nothing in `LPRTCommand::Execute` catches what `SplitToType` raises: whenever the call
raises on the argument, the handler is left by the exception, and no reply is sent. -/
theorem cmd.LPRT_SplitToType_raises (env : ftp.Env) (client : Client) (verb arg text : String)
    (hraise : env.splitToType arg ',' = none) :
    LPRTCommand.Execute env client ⟨[verb, arg], text⟩ = Except.error Fault.Exception := by
  simp [LPRTCommand.Execute, hraise]

/-- C6: on the well-formed command line `LPRT 4,4,127,0,0,1,2,4,1` the handler returns with
the client untouched: no call of `DataInitialise` and no reply at all, where `PORT` for the
same endpoint (`127.0.0.1`, port `4 * 256 + 1`) calls `DataInitialise` in active mode and
replies `CommandOkay`. -/
theorem LPRT_wellformed_does_nothing :
    sample.env.splitToType "4,4,127,0,0,1,2,4,1" ',' = some [4, 4, 127, 0, 0, 1, 2, 4, 1] ∧
    ¬ spec.lprtDeviates [4, 4, 127, 0, 0, 1, 2, 4, 1] ∧
    LPRTCommand.Execute sample.env sample.client
        ⟨["LPRT", "4,4,127,0,0,1,2,4,1"], "4,4,127,0,0,1,2,4,1"⟩ =
      Except.ok sample.client ∧
    PORTCommand.Execute sample.env sample.client
        ⟨["PORT", "127,0,0,1,4,1"], "127,0,0,1,4,1"⟩ =
      { control := [(ReplyCode.CommandOkay, "PORT command successful.")],
        data := [DataCall.DataInitialise ⟨⟨Family.IPv4, "127.0.0.1"⟩, 1025⟩ false],
        extPasvMode := EPSVMode.EPSVNormal } :=
  ⟨by decide, by simp [spec.lprtDeviates], rfl, by decide⟩

/-! ### `EPSV` -/

/-- C7: when `EPSV` comes without an argument and the listener opens on the endpoint `ep`,
the `ExtendedPassiveMode` reply reads `Entering extended passive mode (|||port|)` in normal
mode and `Entering extended passive mode (|family|ip|port|)` in full mode, with family `1`
for an IPv4 address and `2` otherwise; the port is printed in decimal in both. -/
theorem EPSV_reply_format (env : ftp.Env) (client : Client) (c : Command) (ep : Endpoint)
    (harg : c.argStr = "")
    (hlisten : env.dataInitialise Endpoint.default true = some ep) :
    (client.extPasvMode = EPSVMode.EPSVNormal →
      (EPSVCommand.Execute env client c).control = client.control ++
        [(ReplyCode.ExtendedPassiveMode,
          "Entering extended passive mode " ++ ("(|||" ++ toString ep.port ++ "|)"))]) ∧
    (client.extPasvMode = EPSVMode.EPSVFull →
      (EPSVCommand.Execute env client c).control = client.control ++
        [(ReplyCode.ExtendedPassiveMode,
          "Entering extended passive mode " ++
            ("(|" ++ (if ep.ip.family = Family.IPv4 then "1" else "2") ++ "|" ++ ep.ip.text ++
              "|" ++ toString ep.port ++ "|)"))]) := by
  have hnormal : ("Entering extended passive mode (" ++ ("|||" ++ toString ep.port ++ "|") ++ ")" :
      String) = "Entering extended passive mode " ++ ("(|||" ++ toString ep.port ++ "|)") := by
    apply String.ext
    simp
  have hfull : ∀ fam : String,
      ("Entering extended passive mode (" ++
          ("|" ++ fam ++ "|" ++ ep.ip.text ++ "|" ++ toString ep.port ++ "|") ++ ")" : String) =
        "Entering extended passive mode " ++
          ("(|" ++ fam ++ "|" ++ ep.ip.text ++ "|" ++ toString ep.port ++ "|)") := by
    intro fam
    apply String.ext
    simp
  unfold EPSVCommand.Execute
  simp only [harg, Client.DataInitialise, hlisten, ne_eq, not_true_eq_false, if_false]
  constructor
  · intro hmode
    simp only [Client.Reply, EPSVCommand.hostString, hmode]
    rw [← hnormal]
    rfl
  · intro hmode
    simp only [Client.Reply, EPSVCommand.hostString, hmode]
    rw [← hfull]
    cases ep.ip.family <;> rfl

/-- With the listener on `127.0.0.1:50000`, `EPSV` answers `(|||50000|)` in normal mode and
`(|1|127.0.0.1|50000|)` in full mode. -/
theorem EPSV_reply_format_witness :
    (EPSVCommand.Execute sample.env sample.client ⟨["EPSV"], ""⟩).control =
      [(ReplyCode.ExtendedPassiveMode, "Entering extended passive mode (|||50000|)")] ∧
    (EPSVCommand.Execute sample.env { sample.client with extPasvMode := EPSVMode.EPSVFull }
        ⟨["EPSV"], ""⟩).control =
      [(ReplyCode.ExtendedPassiveMode,
        "Entering extended passive mode (|1|127.0.0.1|50000|)")] :=
  ⟨(EPSV_reply_format sample.env sample.client ⟨["EPSV"], ""⟩
      ⟨⟨Family.IPv4, "127.0.0.1"⟩, 50000⟩ rfl rfl).1 rfl,
    (EPSV_reply_format sample.env { sample.client with extPasvMode := EPSVMode.EPSVFull }
      ⟨["EPSV"], ""⟩ ⟨⟨Family.IPv4, "127.0.0.1"⟩, 50000⟩ rfl rfl).2 rfl⟩


/-- C8, as stated, fails: the command line `EPSV ALL` is answered with `SyntaxError`. -/
theorem EPSV_ALL_is_syntax_error :
    EPSVCommand.Execute sample.env sample.client ⟨["EPSV", "ALL"], "ALL"⟩ =
      sample.client.Reply ReplyCode.SyntaxError "Wrong number of arguments." := by
  decide

/-- C8, amended: `EPSV` takes no argument. Every non-empty argument string, `ALL` included,
is answered with `SyntaxError` and nothing else happens; the empty argument string is the only
one that is not answered with `SyntaxError`. -/
theorem EPSV_syntax_error_iff_argument (env : ftp.Env) (client : Client) (c : Command) :
    (c.argStr ≠ "" →
      EPSVCommand.Execute env client c =
        client.Reply ReplyCode.SyntaxError "Wrong number of arguments.") ∧
    (c.argStr = "" →
      ∀ text, (EPSVCommand.Execute env client c).control ≠
        client.control ++ [(ReplyCode.SyntaxError, text)]) := by
  unfold EPSVCommand.Execute
  constructor
  · intro h
    simp [h]
  · intro h text
    simp only [h, ne_eq, not_true_eq_false, if_false, Client.DataInitialise]
    cases env.dataInitialise Endpoint.default true <;> simp [Client.Reply]

/-! ### The path resolver -/

theorem fs.compareIsZero_iff (pathstr sitepath : List Char) :
    compareIsZero pathstr sitepath.length sitepath = true ↔ sitepath <+: pathstr := by
  simp only [compareIsZero, beq_iff_eq]
  rw [List.prefix_iff_eq_take]
  exact eq_comm

theorem fs.charAt_append (s t : List Char) : charAt (s ++ t) s.length = charAt t 0 := by
  induction s with
  | nil => rfl
  | cons a s ih => simpa [charAt, List.getD] using ih

theorem fs.MakeVirtual_condition (s p : List Char) :
    (compareIsZero p s.length s && (charAt p s.length == '/' || p.length == s.length)) = true ↔
      (p = s ∨ s ++ ['/'] <+: p) := by
  simp only [Bool.and_eq_true, Bool.or_eq_true, beq_iff_eq, fs.compareIsZero_iff]
  constructor
  · rintro ⟨⟨t, rfl⟩, h⟩
    rcases h with h | h
    · right
      rw [fs.charAt_append] at h
      cases t with
      | nil => exact absurd h (by decide)
      | cons a t =>
        have ha : a = '/' := h
        subst ha
        exact ⟨t, by simp⟩
    · left
      simp only [List.length_append] at h
      have : t = [] := List.eq_nil_of_length_eq_zero (by omega)
      subst this
      simp
  · rintro (rfl | ⟨t, rfl⟩)
    · exact ⟨List.prefix_refl _, Or.inr rfl⟩
    · refine ⟨⟨'/' :: t, by simp⟩, Or.inl ?_⟩
      rw [List.append_assoc, fs.charAt_append]
      rfl

theorem spec.underSiteRoot_iff (s p : String) :
    spec.underSiteRoot s p ↔ (p.toList = s.toList ∨ s.toList ++ ['/'] <+: p.toList) := by
  simp only [spec.underSiteRoot, List.isPrefixOf_iff_prefix]
  constructor
  · rintro (h | h)
    · exact Or.inl (by rw [h])
    · exact Or.inr h
  · rintro (h | h)
    · exact Or.inl (String.ext h)
    · exact Or.inr h

theorem spec.stripSiteRoot_eq (s p : String) :
    spec.stripSiteRoot s p =
      String.mk (if (p.toList.drop s.toList.length).isEmpty then ['/']
        else p.toList.drop s.toList.length) := by
  unfold spec.stripSiteRoot
  have hlen : s.length = s.toList.length := rfl
  rw [hlen]
  cases h : p.toList.drop s.toList.length with
  | nil => rfl
  | cons a t => rfl

/-- C9: for a real path `p` whose cache is still empty, `MakeVirtual` succeeds exactly when
`p` is the site root or begins with the site root followed by `/`; it then returns `p` with
the leading site root removed (`/` when nothing remains), and otherwise raises the
`logic_error`. -/
theorem MakeVirtual_succeeds_iff_under_site_root (env : fs.Env) (p : String) :
    (spec.underSiteRoot env.Sitepath p →
      ∃ path, MakeVirtual env (RealPath.new p) =
        Except.ok (VirtualPath.new (spec.stripSiteRoot env.Sitepath p), path)) ∧
    (¬ spec.underSiteRoot env.Sitepath p →
      MakeVirtual env (RealPath.new p) =
        Except.error LogicError.RealPathCannotBeMadeVirtualPath) := by
  have hc := (fs.MakeVirtual_condition env.Sitepath.toList p.toList).trans
    (spec.underSiteRoot_iff env.Sitepath p).symm
  constructor
  · intro h
    simp only [MakeVirtual, RealPath.new, Cache.empty]
    rw [if_pos (hc.2 h), spec.stripSiteRoot_eq]
    exact ⟨_, rfl⟩
  · intro h
    simp only [MakeVirtual, RealPath.new, Cache.empty]
    rw [if_neg (fun h' => h (hc.1 h'))]

/-- A sibling that only shares the site root as a string prefix is rejected: site root
`/site`, real path `/sitefoo/x`. -/
theorem MakeVirtual_rejects_sibling_of_site_root :
    MakeVirtual sample.fsEnv (RealPath.new "/sitefoo/x") =
      Except.error LogicError.RealPathCannotBeMadeVirtualPath :=
  (MakeVirtual_succeeds_iff_under_site_root sample.fsEnv "/sitefoo/x").2 (by decide)

/-- Whatever `Realpath` answers for the path under the site root is what `MakeReal` returns:
the answer is not compared with the site root. -/
theorem fs.MakeReal_of_Realpath (env : fs.Env) (path : Path) (q : String)
    (hfresh : path.cache.real = none)
    (hreal : env.Realpath
      (env.prepend env.Sitepath (env.Resolve (env.append env.WorkDirectory path.path))) =
        some q) :
    (MakeReal env path).1 = RealPath.new q := by
  simp [MakeReal, hfresh, hreal]

/-- C10: the symlink step can leave the site root. With site root `/site` and a symbolic
link `/site/link` pointing to `/etc`, `MakeReal` of the path `link` is `/etc`, which is
neither the site root nor below it; `MakeVirtual` of that real path raises the `logic_error`
that the source says is never reached. -/
theorem MakeReal_follows_symlink_out_of_site_root :
    sample.Resolve (sample.append "/" "link") = "/link" ∧
    (MakeReal sample.fsEnv (Path.new "link")).1 = RealPath.new "/etc" ∧
    ¬ spec.underSiteRoot sample.fsEnv.Sitepath "/etc" ∧
    MakeVirtual sample.fsEnv (MakeReal sample.fsEnv (Path.new "link")).1 =
      Except.error LogicError.RealPathCannotBeMadeVirtualPath :=
  ⟨by decide, by decide, by decide, rfl⟩

/-! ### Round trip and caching in the path resolver -/

theorem spec.isNormalized_rooted (v : String) (h : spec.isNormalized v) :
    ∃ rest, v.toList = '/' :: rest := by
  unfold spec.isNormalized sample.Resolve at h
  rw [← h]
  exact ⟨_, rfl⟩

/-- A path that starts with `/`, put behind the site root, is mapped back to itself. -/
theorem fs.MakeVirtual_of_append (env : fs.Env) (v : String) (rest : List Char)
    (hv : v.toList = '/' :: rest) :
    MakeVirtual env (RealPath.new (env.Sitepath ++ v)) =
      Except.ok (VirtualPath.new v,
        { path := env.Sitepath ++ v, cache := { virt := some v, real := none } }) := by
  have hcond := (fs.MakeVirtual_condition env.Sitepath.toList (env.Sitepath ++ v).toList).2
    (Or.inr ⟨rest, by simp [String.toList, String.data_append] at hv ⊢; rw [hv]⟩)
  have hdrop : (env.Sitepath ++ v).toList.drop env.Sitepath.toList.length = v.toList := by
    simp [String.toList]
  have hmk : String.mk ('/' :: rest) = v := by
    rw [← hv]
    rfl
  simp only [MakeVirtual, RealPath.new, Cache.empty]
  rw [if_pos hcond]
  simp only [hdrop, hv, List.isEmpty_cons, Bool.false_eq_true, if_false, hmk]

/-- C11: for a normalized virtual path `v` and any site root (the operator `&` putting the
site root in front of `v`), `MakeVirtual(MakeReal(v))` does not raise the `logic_error` and
returns `v`. -/
theorem MakeVirtual_MakeReal_roundtrip (env : fs.Env) (v : String)
    (hnorm : spec.isNormalized v)
    (hprepend : env.prepend env.Sitepath v = env.Sitepath ++ v) :
    ∃ real, MakeVirtual env (MakeRealOfVirtual env (VirtualPath.new v)).1 =
      Except.ok (VirtualPath.new v, real) := by
  obtain ⟨rest, hv⟩ := spec.isNormalized_rooted v hnorm
  have h1 : (MakeRealOfVirtual env (VirtualPath.new v)).1 = RealPath.new (env.Sitepath ++ v) := by
    simp [MakeRealOfVirtual, VirtualPath.new, Cache.empty, hprepend]
  rw [h1, fs.MakeVirtual_of_append env v rest hv]
  exact ⟨_, rfl⟩

/-- With site root `/site`, the normalized path `/pub/file.txt` goes to
`/site/pub/file.txt` and back. -/
theorem MakeVirtual_MakeReal_roundtrip_witness :
    ∃ real, MakeVirtual sample.fsEnv
        (MakeRealOfVirtual sample.fsEnv (VirtualPath.new "/pub/file.txt")).1 =
      Except.ok (VirtualPath.new "/pub/file.txt", real) :=
  MakeVirtual_MakeReal_roundtrip sample.fsEnv "/pub/file.txt" (by decide) rfl

/-- The first successful `MakeVirtual(const RealPath&)` stores its result in `cache.virt`;
every later call on the object returns that value whatever the surroundings have become, and
leaves the object as it is. -/
theorem fs.MakeVirtual_caches (env : fs.Env) (path path1 : RealPath) (virt : VirtualPath)
    (hfresh : path.cache.virt = none)
    (hcall : MakeVirtual env path = Except.ok (virt, path1)) :
    path1.cache.virt = some virt.path ∧ virt = VirtualPath.new virt.path ∧
    ∀ env2, MakeVirtual env2 path1 = Except.ok (virt, path1) := by
  simp only [MakeVirtual, hfresh] at hcall
  split at hcall
  · injection hcall with hcall
    injection hcall with h1 h2
    subst h1 h2
    refine ⟨rfl, rfl, fun env2 => ?_⟩
    simp [MakeVirtual]
  · cases hcall

/-- The first `MakeReal(const Path&)` stores its result in `cache.real`; every later call on
the object returns that value whatever the surroundings have become, and leaves the object as
it is. -/
theorem fs.MakeReal_caches (env : fs.Env) (path : Path) (hfresh : path.cache.real = none) :
    (MakeReal env path).2.cache.real = some (MakeReal env path).1 ∧
    ∀ env2, MakeReal env2 (MakeReal env path).2 = MakeReal env path := by
  simp [MakeReal, hfresh]

/-- The first `MakeReal(const VirtualPath&)` stores its result in `cache.real`; every later
call on the object returns that value and leaves the object as it is. -/
theorem fs.MakeRealOfVirtual_caches (env : fs.Env) (path : VirtualPath)
    (hfresh : path.cache.real = none) :
    (MakeRealOfVirtual env path).2.cache.real = some (MakeRealOfVirtual env path).1.path ∧
    ∀ env2, MakeRealOfVirtual env2 (MakeRealOfVirtual env path).2 =
      MakeRealOfVirtual env path := by
  simp [MakeRealOfVirtual, hfresh, RealPath.new]

/-- A call of `MakeVirtual(const Path&)` on an object whose `cache.virt` is empty leaves
`cache.virt` empty, whether it succeeds or not. -/
theorem fs.MakeVirtualOfPath_leaves_virt_empty (env : fs.Env) (path : Path)
    (hfresh : path.cache.virt = none) :
    (MakeVirtualOfPath env path).2.cache.virt = none := by
  simp only [MakeVirtualOfPath, hfresh]
  cases hreal : path.cache.real with
  | none =>
    simp only [MakeReal, hreal]
    split <;> simp [hfresh]
  | some real =>
    simp only [MakeReal, hreal]
    split <;> simp [hfresh]

/-- C12: `MakeVirtual(const Path&)` does not populate the cache field it reads. On the fresh
path `pub` (site root `/site`, working directory `/`) the first call succeeds with `/pub`,
fills `cache.real` with the real path `/site/pub` (whose own cache now holds `/pub`) and
leaves `cache.virt` empty, so the second call takes the same branch again; the three other
conversions do store their result in the object's cache field at the first call. -/
theorem MakeVirtual_of_Path_leaves_cache_virt_empty :
    MakeVirtualOfPath sample.fsEnv (Path.new "pub") =
      (Except.ok (VirtualPath.new "/pub"),
        { path := "pub",
          cache := { virt := none,
                     real := some { path := "/site/pub",
                                    cache := { virt := some "/pub", real := none } } } }) ∧
    (MakeVirtualOfPath sample.fsEnv (Path.new "pub")).2.cache.virt = none ∧
    MakeVirtualOfPath sample.fsEnv (MakeVirtualOfPath sample.fsEnv (Path.new "pub")).2 =
      MakeVirtualOfPath sample.fsEnv (Path.new "pub") ∧
    (MakeReal sample.fsEnv (Path.new "pub")).2.cache.real = some (RealPath.new "/site/pub") ∧
    (MakeRealOfVirtual sample.fsEnv (VirtualPath.new "/pub")).2.cache.real =
      some "/site/pub" :=
  ⟨rfl, rfl, rfl, rfl, rfl⟩

/-! ### `PASS` and `USER` -/

/-- C13: `PASSCommand::Execute` on an empty argument replies `SyntaxError` and leaves the
session as it is; on a non-empty one it replies `UserLoggedIn` and moves to `LoggedIn` when
the password verifies, replies `NotLoggedIn` and moves to `Finished` when it does not and the
attempt limit is exceeded, and replies `NotLoggedIn` and moves to the logged-out state when
it does not and the limit is not exceeded. -/
theorem PASS_outcomes (env : ftp.Env) (client : Client) (c : Command) :
    (c.argStr = "" →
      PASSCommand.Execute env client c =
        { client with control :=
            client.control ++ [(ReplyCode.SyntaxError, "Wrong number of arguments.")] }) ∧
    (c.argStr ≠ "" → (client.VerifyPassword env c.argStr).2 = true →
      (PASSCommand.Execute env client c).state = ClientState.LoggedIn ∧
      (PASSCommand.Execute env client c).control =
        client.control ++ [(ReplyCode.UserLoggedIn, "User " ++ client.user ++ " logged in.")]) ∧
    (c.argStr ≠ "" → (client.VerifyPassword env c.argStr).2 = false →
      (client.VerifyPassword env c.argStr).1.PasswordAttemptsExceeded env = true →
      (PASSCommand.Execute env client c).state = ClientState.Finished ∧
      (PASSCommand.Execute env client c).control =
        client.control ++
          [(ReplyCode.NotLoggedIn, "Password attempts exceeded, disconnecting.")]) ∧
    (c.argStr ≠ "" → (client.VerifyPassword env c.argStr).2 = false →
      (client.VerifyPassword env c.argStr).1.PasswordAttemptsExceeded env = false →
      (PASSCommand.Execute env client c).state = ClientState.LoggedOut ∧
      (PASSCommand.Execute env client c).control =
        client.control ++ [(ReplyCode.NotLoggedIn, "Login incorrect.")]) := by
  refine ⟨fun h => ?_, fun h hv => ?_, fun h hv hx => ?_, fun h hv hx => ?_⟩
  · simp [PASSCommand.Execute, h, Client.Reply]
  · unfold Client.VerifyPassword at hv
    split at hv
    · rename_i hok
      simp [PASSCommand.Execute, h, Client.VerifyPassword, hok, Client.Reply,
        Client.SetLoggedIn]
    · cases hv
  · unfold Client.VerifyPassword at hv hx
    split at hv
    · cases hv
    · rename_i hok
      simp only [hok, Bool.false_eq_true, if_false] at hx
      simp [PASSCommand.Execute, h, Client.VerifyPassword, hok, hx, Client.Reply,
        Client.SetFinished]
  · unfold Client.VerifyPassword at hv hx
    split at hv
    · cases hv
    · rename_i hok
      simp only [hok, Bool.false_eq_true, if_false] at hx
      simp [PASSCommand.Execute, h, Client.VerifyPassword, hok, hx, Client.Reply,
        Client.SetLoggedOut]

/-- The account `alice` waiting for its password: `PASS secret` logs in; `PASS wrong` falls
back to the logged-out state after the first failure and ends the session once the limit of
three failures is exceeded. -/
theorem PASS_outcomes_witness :
    ((PASSCommand.Execute sample.env
        { sample.client with user := "alice", state := ClientState.WaitingPassword }
        ⟨["PASS", "secret"], "secret"⟩).state = ClientState.LoggedIn ∧
      (PASSCommand.Execute sample.env
        { sample.client with user := "alice", state := ClientState.WaitingPassword }
        ⟨["PASS", "secret"], "secret"⟩).control =
        [(ReplyCode.UserLoggedIn, "User alice logged in.")]) ∧
    ((PASSCommand.Execute sample.env
        { sample.client with user := "alice", state := ClientState.WaitingPassword }
        ⟨["PASS", "wrong"], "wrong"⟩).state = ClientState.LoggedOut ∧
      (PASSCommand.Execute sample.env
        { sample.client with user := "alice", state := ClientState.WaitingPassword }
        ⟨["PASS", "wrong"], "wrong"⟩).control =
        [(ReplyCode.NotLoggedIn, "Login incorrect.")]) ∧
    ((PASSCommand.Execute sample.env
        { sample.client with user := "alice", state := ClientState.WaitingPassword,
                             passwordAttempts := 3 }
        ⟨["PASS", "wrong"], "wrong"⟩).state = ClientState.Finished ∧
      (PASSCommand.Execute sample.env
        { sample.client with user := "alice", state := ClientState.WaitingPassword,
                             passwordAttempts := 3 }
        ⟨["PASS", "wrong"], "wrong"⟩).control =
        [(ReplyCode.NotLoggedIn, "Password attempts exceeded, disconnecting.")]) :=
  ⟨(PASS_outcomes sample.env _ ⟨["PASS", "secret"], "secret"⟩).2.1 (by decide) (by decide),
    (PASS_outcomes sample.env _ ⟨["PASS", "wrong"], "wrong"⟩).2.2.2 (by decide) (by decide)
      (by decide),
    (PASS_outcomes sample.env _ ⟨["PASS", "wrong"], "wrong"⟩).2.2.1 (by decide) (by decide)
      (by decide)⟩

/-- C14: `USERCommand::Execute` on an empty argument replies `SyntaxError` and leaves the
session as it is; on a name other than the account's it replies `NotLoggedIn` and leaves the
session as it is (the authentication stage included); on the account's name it replies
`NeedPassword` and moves to `WaitingPassword`. -/
theorem USER_outcomes (client : Client) (c : Command) :
    (c.argStr = "" →
      USERCommand.Execute client c =
        { client with control :=
            client.control ++ [(ReplyCode.SyntaxError, "Wrong number of arguments.")] }) ∧
    (c.argStr ≠ "" → c.argStr ≠ client.user →
      USERCommand.Execute client c =
        { client with control :=
            client.control ++
              [(ReplyCode.NotLoggedIn, "User " ++ c.argStr ++ " access denied.")] }) ∧
    (c.argStr ≠ "" → c.argStr = client.user →
      USERCommand.Execute client c =
        { client with
            control := client.control ++
              [(ReplyCode.NeedPassword, "Password required for " ++ c.argStr ++ ".")],
            state := ClientState.WaitingPassword }) := by
  refine ⟨fun h => ?_, fun h hne => ?_, fun h heq => ?_⟩
  · simp [USERCommand.Execute, h, Client.Reply]
  · simp [USERCommand.Execute, h, hne, Client.Reply]
  · have hne : ¬ client.user = "" := heq ▸ h
    simp [USERCommand.Execute, heq, hne, Client.Reply, Client.SetWaitingPassword]

/-- A logged-out session of the account `alice`: `USER alice` asks for the password, `USER bob`
is refused and the session stays logged out. -/
theorem USER_outcomes_witness :
    USERCommand.Execute { sample.client with user := "alice" } ⟨["USER", "alice"], "alice"⟩ =
      { sample.client with
          user := "alice",
          control := [(ReplyCode.NeedPassword, "Password required for alice.")],
          state := ClientState.WaitingPassword } ∧
    USERCommand.Execute { sample.client with user := "alice" } ⟨["USER", "bob"], "bob"⟩ =
      { sample.client with
          user := "alice",
          control := [(ReplyCode.NotLoggedIn, "User bob access denied.")] } :=
  ⟨(USER_outcomes { sample.client with user := "alice" }
      ⟨["USER", "alice"], "alice"⟩).2.2 (by decide) (by decide),
    (USER_outcomes { sample.client with user := "alice" }
      ⟨["USER", "bob"], "bob"⟩).2.1 (by decide) (by decide)⟩

/-! ### `RETR` and `STOR` -/

/-- C15: when opening the source file fails, `RETRCommand::Execute` sends the one reply
`ActionNotOkay` (so no `TransferStatusOkay`) and makes no call on the data connection: no
`DataOpen`, no `DataClose`, no write. -/
theorem RETR_open_failure (env : ftp.Env) (client : Client) (c : Command) (message : String)
    (harg : c.argStr ≠ "")
    (hopen : env.openFile c.argStr = Except.error message) :
    RETRCommand.Execute env client c =
      { client with control :=
          client.control ++ [(ReplyCode.ActionNotOkay, "Unable to open file: " ++ message)] } ∧
    (RETRCommand.Execute env client c).data = client.data := by
  simp [RETRCommand.Execute, harg, hopen, Client.Reply]

/-- The command line `RETR missing.txt`, for a file that does not exist. -/
theorem RETR_open_failure_witness :
    RETRCommand.Execute sample.env sample.client ⟨["RETR", "missing.txt"], "missing.txt"⟩ =
      { sample.client with control :=
          sample.client.control ++
            [(ReplyCode.ActionNotOkay, "Unable to open file: " ++ "No such file or directory")] } ∧
    (RETRCommand.Execute sample.env sample.client
      ⟨["RETR", "missing.txt"], "missing.txt"⟩).data = sample.client.data :=
  RETR_open_failure sample.env sample.client ⟨["RETR", "missing.txt"], "missing.txt"⟩
    "No such file or directory" (by decide) rfl

/-- The copy loop on a file whose reads give the buffers `chunks` and then end of file, when
no write fails: every buffer is written, in order, and the loop is left at end of file. -/
theorem cmd.RETRCommand.copy_chunks (env : ftp.Env)
    (hwrite : ∀ log buffer, env.dataWrite log buffer = none) (chunks : List (List Char))
    (client : Client) :
    RETRCommand.copy env client (chunks.map ReadResult.chunk) =
      ({ client with data := client.data ++ chunks.map DataCall.Write }, CopyEnd.EndOfFile) := by
  induction chunks generalizing client with
  | nil => simp [RETRCommand.copy]
  | cons buffer rest ih =>
    simp only [List.map_cons, RETRCommand.copy, Client.Write, hwrite]
    rw [ih]
    simp

theorem spec.written_append (log1 log2 : List DataCall) :
    spec.written (log1 ++ log2) = spec.written log1 ++ spec.written log2 := by
  induction log1 with
  | nil => rfl
  | cons call rest ih => cases call <;> simp [spec.written, ih]

theorem spec.written_writes (chunks : List (List Char)) :
    spec.written (chunks.map DataCall.Write) = chunks.flatten := by
  induction chunks with
  | nil => rfl
  | cons buffer rest ih => simp [spec.written, ih]

/-- C16: for a source file whose reads give the buffers `chunks` (of any length, so also of
at most 16384 characters) and then end of file, with the data connection opening and no
write failing, `RETRCommand::Execute` ends, having written to the data connection exactly the
buffers in order, that is the content of the file (their concatenation), then closed the data
connection and replied `DataClosedOkay` last. -/
theorem RETR_copies_file (env : ftp.Env) (client : Client) (c : Command)
    (chunks : List (List Char))
    (harg : c.argStr ≠ "")
    (hopen : env.openFile c.argStr = Except.ok (chunks.map ReadResult.chunk))
    (hdata : env.dataOpen = none)
    (hwrite : ∀ log buffer, env.dataWrite log buffer = none) :
    (RETRCommand.Execute env client c).data =
      client.data ++ [DataCall.DataOpen] ++ chunks.map DataCall.Write ++ [DataCall.DataClose] ∧
    spec.written (RETRCommand.Execute env client c).data =
      spec.written client.data ++ chunks.flatten ∧
    (RETRCommand.Execute env client c).control =
      client.control ++
        [(ReplyCode.TransferStatusOkay,
            "Opening data connection for download of " ++ env.basename c.argStr ++ "."),
          (ReplyCode.DataClosedOkay, "Transfer finished.")] := by
  have hexec : RETRCommand.Execute env client c =
      { client with
          control := client.control ++
            [(ReplyCode.TransferStatusOkay,
                "Opening data connection for download of " ++ env.basename c.argStr ++ "."),
              (ReplyCode.DataClosedOkay, "Transfer finished.")],
          data := client.data ++ [DataCall.DataOpen] ++ chunks.map DataCall.Write ++
            [DataCall.DataClose] } := by
    simp only [RETRCommand.Execute, harg, if_false, hopen, Client.DataOpen, hdata,
      cmd.RETRCommand.copy_chunks env hwrite]
    simp [Client.Reply, Client.DataClose]
  rw [hexec]
  refine ⟨rfl, ?_, rfl⟩
  simp [spec.written_append, spec.written_writes, spec.written]

/-- The command line `RETR hello.txt`, for a file read as `hello, ` and `world`: the data
connection receives `hello, world`. -/
theorem RETR_copies_file_witness :
    (RETRCommand.Execute sample.env sample.client ⟨["RETR", "hello.txt"], "hello.txt"⟩).data =
      [DataCall.DataOpen, DataCall.Write "hello, ".toList, DataCall.Write "world".toList,
        DataCall.DataClose] ∧
    spec.written
        (RETRCommand.Execute sample.env sample.client ⟨["RETR", "hello.txt"], "hello.txt"⟩).data =
      "hello, world".toList ∧
    (RETRCommand.Execute sample.env sample.client
        ⟨["RETR", "hello.txt"], "hello.txt"⟩).control =
      [(ReplyCode.TransferStatusOkay, "Opening data connection for download of hello.txt."),
        (ReplyCode.DataClosedOkay, "Transfer finished.")] :=
  RETR_copies_file sample.env sample.client ⟨["RETR", "hello.txt"], "hello.txt"⟩
    ["hello, ".toList, "world".toList] (by decide) rfl rfl (fun _ _ => rfl)

theorem cmd.STORCommand.copy_eq (chunks : List (List Char)) (fout : List Char) :
    STORCommand.copy fout chunks = fout ++ chunks.flatten := by
  induction chunks generalizing fout with
  | nil => simp [STORCommand.copy]
  | cons buffer rest ih => simp [STORCommand.copy, ih]

/-- C17: once the destination file is created and the data connection is open,
`STORCommand::Execute` writes to the file exactly the concatenation of the buffers the data
connection delivers, in order, and closes the data connection once; it then replies
`DataClosedOkay` when the delivery ended with end-of-stream, and `DataCloseAborted` when it
ended with a read error of the data connection. -/
theorem STOR_stores_stream (env : ftp.Env) (client : Client) (c : Command)
    (harg : c.argStr ≠ "")
    (hcreate : env.createFile c.argStr = none)
    (hdata : env.dataOpen = none) :
    (STORCommand.Execute env client c).2 = some env.incoming.chunks.flatten ∧
    (STORCommand.Execute env client c).1.data =
      client.data ++ [DataCall.DataOpen, DataCall.DataClose] ∧
    (env.incoming.ending = none →
      (STORCommand.Execute env client c).1.control =
        client.control ++
          [(ReplyCode.TransferStatusOkay,
              "Opening data connection for upload of " ++ env.basename c.argStr ++ "."),
            (ReplyCode.DataClosedOkay, "Transfer finished.")]) ∧
    (∀ message, env.incoming.ending = some message →
      (STORCommand.Execute env client c).1.control =
        client.control ++
          [(ReplyCode.TransferStatusOkay,
              "Opening data connection for upload of " ++ env.basename c.argStr ++ "."),
            (ReplyCode.DataCloseAborted,
              "Error while reading from data connection: " ++ message)]) := by
  simp only [STORCommand.Execute, harg, if_false, hcreate, Client.DataOpen, hdata,
    cmd.STORCommand.copy_eq]
  cases hend : env.incoming.ending with
  | none => simp [Client.Reply, Client.DataClose]
  | some message => simp [Client.Reply, Client.DataClose]

/-- The command line `STOR upload.bin`, the peer sending `up` and `load` and then closing:
the file holds `upload`. -/
theorem STOR_stores_stream_witness :
    (STORCommand.Execute sample.env sample.client
        ⟨["STOR", "upload.bin"], "upload.bin"⟩).2 = some "upload".toList ∧
    (STORCommand.Execute sample.env sample.client
        ⟨["STOR", "upload.bin"], "upload.bin"⟩).1.data =
      [DataCall.DataOpen, DataCall.DataClose] ∧
    (STORCommand.Execute sample.env sample.client
        ⟨["STOR", "upload.bin"], "upload.bin"⟩).1.control =
      [(ReplyCode.TransferStatusOkay, "Opening data connection for upload of upload.bin."),
        (ReplyCode.DataClosedOkay, "Transfer finished.")] :=
  ⟨(STOR_stores_stream sample.env sample.client ⟨["STOR", "upload.bin"], "upload.bin"⟩
      (by decide) (by decide) rfl).1,
    (STOR_stores_stream sample.env sample.client ⟨["STOR", "upload.bin"], "upload.bin"⟩
      (by decide) (by decide) rfl).2.1,
    (STOR_stores_stream sample.env sample.client ⟨["STOR", "upload.bin"], "upload.bin"⟩
      (by decide) (by decide) rfl).2.2.1 rfl⟩

/-! ### `PROT`, `RNTO` and `SITE` -/

/-- C18: `PROTCommand::Execute` with the argument `P` sets the data-protection flag and with
`C` clears it, replying `CommandOkay`; with `S` or `E` it replies `ParameterNotImplemented`,
with any other argument or another number of arguments `SyntaxError`, the flag staying as it
was; nothing else of the session changes but the reply sent. -/
theorem PROT_effect (client : Client) (c : Command) :
    (∀ verb, c.args = [verb, "P"] →
      PROTCommand.Execute client c =
        { client with
            dataProtected := true,
            control := client.control ++
              [(ReplyCode.CommandOkay, "Protection type set to 'private'.")] }) ∧
    (∀ verb, c.args = [verb, "C"] →
      PROTCommand.Execute client c =
        { client with
            dataProtected := false,
            control := client.control ++
              [(ReplyCode.CommandOkay, "Protection type set to 'clear'.")] }) ∧
    (∀ verb arg, c.args = [verb, arg] → arg = "S" ∨ arg = "E" →
      ∃ text, PROTCommand.Execute client c =
        { client with
            control := client.control ++ [(ReplyCode.ParameterNotImplemented, text)] }) ∧
    (∀ verb arg, c.args = [verb, arg] → arg ≠ "P" → arg ≠ "C" → arg ≠ "S" → arg ≠ "E" →
      ∃ text, PROTCommand.Execute client c =
        { client with control := client.control ++ [(ReplyCode.SyntaxError, text)] }) ∧
    (c.args.length ≠ 2 →
      ∃ text, PROTCommand.Execute client c =
        { client with control := client.control ++ [(ReplyCode.SyntaxError, text)] }) := by
  refine ⟨fun verb h => ?_, fun verb h => ?_, fun verb arg h harg => ?_,
    fun verb arg h hP hC hS hE => ?_, fun h => ?_⟩
  · simp [PROTCommand.Execute, h, Client.Reply, Client.SetDataProtected]
  · simp [PROTCommand.Execute, h, Client.Reply, Client.SetDataProtected]
  · rcases harg with rfl | rfl
    · exact ⟨"Protection type 'secure' not implemented.",
        by simp [PROTCommand.Execute, h, Client.Reply]⟩
    · exact ⟨"Protection type 'confidential' not implemented.",
        by simp [PROTCommand.Execute, h, Client.Reply]⟩
  · exact ⟨"Unrecognised protection type.",
      by simp [PROTCommand.Execute, h, hP, hC, hS, hE, Client.Reply]⟩
  · unfold PROTCommand.Execute
    split
    · rename_i verb arg hargs
      rw [hargs] at h
      exact absurd rfl h
    · exact ⟨_, rfl⟩

/-- The command lines `PROT P` and `PROT S` on a session with a clear data channel. -/
theorem PROT_effect_witness :
    PROTCommand.Execute sample.client ⟨["PROT", "P"], "P"⟩ =
      { sample.client with
          dataProtected := true,
          control := [(ReplyCode.CommandOkay, "Protection type set to 'private'.")] } ∧
    ∃ text, PROTCommand.Execute sample.client ⟨["PROT", "S"], "S"⟩ =
      { sample.client with
          control := sample.client.control ++ [(ReplyCode.ParameterNotImplemented, text)] } :=
  ⟨(PROT_effect sample.client ⟨["PROT", "P"], "P"⟩).1 "PROT" rfl,
    (PROT_effect sample.client ⟨["PROT", "S"], "S"⟩).2.2.1 "PROT" "S" rfl (Or.inl rfl)⟩

/-- C19, as stated, fails: with the rename source `/old.txt` pending, `RNTO new.txt` succeeds
and the session still holds `/old.txt`; a second `RNTO other.txt` without a new `RNFR` is
carried out with that same source (in the sample surroundings a rename from an empty source
fails, and this one is answered `FileActionOkay`). -/
theorem RNTO_keeps_rename_source :
    (RNTOCommand.Execute sample.env { sample.client with renameFrom := "/old.txt" }
        ⟨["RNTO", "new.txt"], "new.txt"⟩) =
      { sample.client with
          renameFrom := "/old.txt",
          control := [(ReplyCode.FileActionOkay, "RNTO command successful.")] } ∧
    (RNTOCommand.Execute sample.env { sample.client with renameFrom := "/old.txt" }
        ⟨["RNTO", "new.txt"], "new.txt"⟩).renameFrom ≠ "" ∧
    RNTOCommand.Execute sample.env
        (RNTOCommand.Execute sample.env { sample.client with renameFrom := "/old.txt" }
          ⟨["RNTO", "new.txt"], "new.txt"⟩)
        ⟨["RNTO", "other.txt"], "other.txt"⟩ =
      { sample.client with
          renameFrom := "/old.txt",
          control := [(ReplyCode.FileActionOkay, "RNTO command successful."),
            (ReplyCode.FileActionOkay, "RNTO command successful.")] } ∧
    RNTOCommand.Execute sample.env sample.client ⟨["RNTO", "other.txt"], "other.txt"⟩ =
      { sample.client with
          control := [(ReplyCode.ActionNotOkay, "RNTO failed: No such file or directory")] } := by
  decide

/-- C19, amended: `RNTOCommand::Execute` renames from the pending rename source and never
clears it. Whatever the argument and whether the rename succeeds or fails, the session holds
the same rename source after the command as before, and for a non-empty argument the reply is
the outcome of renaming from that source: `FileActionOkay` on success, `ActionNotOkay` on
failure. -/
theorem RNTO_leaves_rename_source (env : ftp.Env) (client : Client) (c : Command) :
    (RNTOCommand.Execute env client c).renameFrom = client.renameFrom ∧
    (c.argStr ≠ "" → env.renameFile client.renameFrom c.argStr = none →
      RNTOCommand.Execute env client c =
        { client with control :=
            client.control ++ [(ReplyCode.FileActionOkay, "RNTO command successful.")] }) ∧
    (c.argStr ≠ "" → ∀ message, env.renameFile client.renameFrom c.argStr = some message →
      RNTOCommand.Execute env client c =
        { client with control :=
            client.control ++ [(ReplyCode.ActionNotOkay, "RNTO failed: " ++ message)] }) := by
  refine ⟨?_, fun h hok => ?_, fun h message hfail => ?_⟩
  · unfold RNTOCommand.Execute
    split
    · rfl
    · split <;> rfl
  · simp [RNTOCommand.Execute, h, hok, Client.Reply]
  · simp [RNTOCommand.Execute, h, hfail, Client.Reply]

/-- The rename source `/old.txt` is still pending after `RNTO new.txt`. -/
theorem RNTO_leaves_rename_source_witness :
    RNTOCommand.Execute sample.env { sample.client with renameFrom := "/old.txt" }
        ⟨["RNTO", "new.txt"], "new.txt"⟩ =
      { sample.client with
          renameFrom := "/old.txt",
          control := [(ReplyCode.FileActionOkay, "RNTO command successful.")] } :=
  (RNTO_leaves_rename_source sample.env { sample.client with renameFrom := "/old.txt" }
    ⟨["RNTO", "new.txt"], "new.txt"⟩).2.1 (by decide) rfl

/-- What `SITE EPSV` does: alone it reports the mode with `CommandOkay` and leaves it; with
`normal` or `full` in any letter case it sets the mode, and the reply it sends carries the
code `SyntaxError`; with another value or a fourth token it leaves the mode and replies
`SyntaxError`. -/
theorem cmd.SITE_EPSV_behaviour (client : Client) (c : Command) (verb keyword : String)
    (rest : List String) (harg : c.argStr ≠ "") (hargs : c.args = verb :: keyword :: rest)
    (hkey : boost.to_upper keyword = "EPSV") :
    (rest = [] → ∃ text, SITECommand.Execute client c =
      Except.ok { client with control := client.control ++ [(ReplyCode.CommandOkay, text)] }) ∧
    (∀ value, rest = [value] → boost.to_upper value = "NORMAL" →
      SITECommand.Execute client c =
        Except.ok { client with
          extPasvMode := EPSVMode.EPSVNormal,
          control := client.control ++
            [(ReplyCode.SyntaxError, "Extended passive mode now set to 'normal'.")] }) ∧
    (∀ value, rest = [value] → boost.to_upper value = "FULL" →
      SITECommand.Execute client c =
        Except.ok { client with
          extPasvMode := EPSVMode.EPSVFull,
          control := client.control ++
            [(ReplyCode.SyntaxError, "Extended passive mode now set to 'full'.")] }) ∧
    (∀ value, rest = [value] → boost.to_upper value ≠ "NORMAL" →
      boost.to_upper value ≠ "FULL" →
      SITECommand.Execute client c =
        Except.ok { client with
          control := client.control ++ [(ReplyCode.SyntaxError, SITECommand.syntaxText)] }) ∧
    (2 ≤ rest.length →
      SITECommand.Execute client c =
        Except.ok { client with
          control := client.control ++ [(ReplyCode.SyntaxError, SITECommand.syntaxText)] }) := by
  refine ⟨fun h => ?_, fun value h hv => ?_, fun value h hv => ?_, fun value h h1 h2 => ?_,
    fun h => ?_⟩
  · subst h
    exact ⟨"Extended passive mode is currently '" ++
      (if client.extPasvMode = EPSVMode.EPSVNormal then "normal" else "full") ++ "'.",
      by simp [SITECommand.Execute, harg, hargs, hkey, Client.Reply]⟩
  · subst h
    simp [SITECommand.Execute, harg, hargs, hkey, hv, Client.Reply, Client.SetExtPasvMode]
  · subst h
    have hne : ¬ ("FULL" = "NORMAL") := by decide
    simp [SITECommand.Execute, harg, hargs, hkey, hv, hne, Client.Reply,
      Client.SetExtPasvMode]
  · subst h
    simp [SITECommand.Execute, harg, hargs, hkey, h1, h2, Client.Reply]
  · match rest, h with
    | a :: b :: more, _ =>
      simp [SITECommand.Execute, harg, hargs, hkey, Client.Reply]

/-- C20: `SITE EPSV normal` and `SITE EPSV full` do set the mode, but the reply does not
carry a success code: on a session in full mode `SITE EPSV normal` sets the mode to normal
and replies `SyntaxError` with the text "Extended passive mode now set to 'normal'.", and in
the same way `SITE epsv FULL` sets full mode and replies `SyntaxError`; `SITE EPSV` alone
replies `CommandOkay`. -/
theorem SITE_EPSV_set_replies_SyntaxError :
    SITECommand.Execute { sample.client with extPasvMode := EPSVMode.EPSVFull }
        ⟨["SITE", "EPSV", "normal"], "EPSV normal"⟩ =
      Except.ok { sample.client with
        extPasvMode := EPSVMode.EPSVNormal,
        control := [(ReplyCode.SyntaxError, "Extended passive mode now set to 'normal'.")] } ∧
    SITECommand.Execute sample.client ⟨["SITE", "epsv", "FULL"], "epsv FULL"⟩ =
      Except.ok { sample.client with
        extPasvMode := EPSVMode.EPSVFull,
        control := [(ReplyCode.SyntaxError, "Extended passive mode now set to 'full'.")] } ∧
    SITECommand.Execute sample.client ⟨["SITE", "EPSV"], "EPSV"⟩ =
      Except.ok { sample.client with
        control := [(ReplyCode.CommandOkay, "Extended passive mode is currently 'normal'.")] } :=
  ⟨rfl, rfl, rfl⟩

/-! ### Multi-line replies: `FEAT`, `RNFR`, `STAT` -/

/-- Whenever the data connection opens and the directory listing raises a `NetworkError`,
`NLSTCommand::Execute` sends both completion replies, `DataCloseAborted` and then
`DataClosedOkay`, around its one `DataClose`. -/
theorem cmd.NLST_listing_failure (env : ftp.Env) (client : Client) (c : Command)
    (options path message : String)
    (hdata : env.dataOpen = none)
    (hargs : NLSTCommand.arguments c = some (options, path))
    (hfail : (env.listing path options "").error = some message) :
    (NLSTCommand.Execute env client c).1.control =
      client.control ++
        [(ReplyCode.TransferStatusOkay, "Opening data connection for directory listing."),
          (ReplyCode.DataCloseAborted,
            "Error whiling writing to data connection: " ++ message),
          (ReplyCode.DataClosedOkay, "End of directory listing.")] := by
  simp [NLSTCommand.Execute, Client.DataOpen, hdata, hargs, DirectoryList.Execute, hfail,
    Client.Reply, Client.DataClose]

/-- Whenever the data connection opens and the directory listing raises a `NetworkError`,
`LISTCommand::Execute` closes the data connection and sends the one completion reply
`DataCloseAborted`. -/
theorem cmd.LIST_listing_failure (env : ftp.Env) (client : Client) (c : Command)
    (options path message : String)
    (hdata : env.dataOpen = none)
    (hargs : LISTCommand.arguments c = some (options, path))
    (hfail : (env.listing path options "l").error = some message) :
    (LISTCommand.Execute env client c).1.control =
      client.control ++
        [(ReplyCode.TransferStatusOkay, "Opening data connection for directory listing."),
          (ReplyCode.DataCloseAborted,
            "Error whiling writing to data connection: " ++ message)] := by
  simp [LISTCommand.Execute, Client.DataOpen, hdata, hargs, DirectoryList.Execute, hfail,
    Client.Reply, Client.DataClose]

/-- C22: `NLST` sends both completion replies when the listing fails. On `NLST /missing`,
with the data connection open and the listing raising a `NetworkError`, the handler calls
`DataClose` once but replies `DataCloseAborted` and then `DataClosedOkay`; `RETR` on a
failing write and `STOR` on a failing read send `DataCloseAborted` alone. -/
theorem NLST_listing_failure_sends_both_replies :
    (NLSTCommand.Execute sample.env sample.client ⟨["NLST", "/missing"], "/missing"⟩).1.control =
      [(ReplyCode.TransferStatusOkay, "Opening data connection for directory listing."),
        (ReplyCode.DataCloseAborted,
          "Error whiling writing to data connection: Connection reset by peer"),
        (ReplyCode.DataClosedOkay, "End of directory listing.")] ∧
    (NLSTCommand.Execute sample.env sample.client ⟨["NLST", "/missing"], "/missing"⟩).1.data =
      [DataCall.DataOpen, DataCall.DataClose] ∧
    (RETRCommand.Execute { sample.env with dataWrite := fun _ _ => some "Broken pipe" }
        sample.client ⟨["RETR", "hello.txt"], "hello.txt"⟩).control =
      [(ReplyCode.TransferStatusOkay, "Opening data connection for download of hello.txt."),
        (ReplyCode.DataCloseAborted, "Error while writing to data connection: Broken pipe")] ∧
    (STORCommand.Execute { sample.env with incoming := ⟨[], some "Connection reset by peer"⟩ }
        sample.client ⟨["STOR", "upload.bin"], "upload.bin"⟩).1.control =
      [(ReplyCode.TransferStatusOkay, "Opening data connection for upload of upload.bin."),
        (ReplyCode.DataCloseAborted,
          "Error while reading from data connection: Connection reset by peer")] :=
  ⟨rfl, rfl, rfl, rfl⟩

/-- What `NLST` hands to the directory listing is what the description of the listing
commands says, and the path that `LIST` hands on is always `.`. -/
theorem cmd.listing_arguments (c : Command) (arguments : String × String) :
    (NLSTCommand.arguments c = some arguments → arguments = spec.listingArguments c) ∧
    (LISTCommand.arguments c = some arguments → arguments.2 = ".") := by
  have key : ∀ (arg1 : String) (argStr path : List Char),
      boost.substr argStr (listOptions arg1).2 = some path →
      ((listOptions arg1).1, String.mk (boost.trim path)) =
        if arg1.toList.head? = some '-' then
          (String.mk (arg1.toList.drop 1),
            String.mk (boost.trim (argStr.drop arg1.toList.length)))
        else ("", String.mk (boost.trim argStr)) := by
    intro arg1 argStr path hsub
    unfold boost.substr at hsub
    split at hsub
    · simp only [Option.some.injEq] at hsub
      subst hsub
      unfold listOptions
      cases harg : arg1.toList with
      | nil =>
        have h0 : (Char.ofNat 0 == '-') = false := by decide
        simp [h0]
      | cons first more =>
        by_cases hdash : first = '-'
        · simp [hdash]
        · simp [hdash]
    · cases hsub
  constructor
  · intro h
    unfold NLSTCommand.arguments at h
    unfold spec.listingArguments
    split at h
    · rename_i verb arg1 rest hargs
      split at h
      · cases h
      · rename_i path hsub
        simp only [Option.some.injEq] at h
        rw [← h]
        exact key arg1 c.argStr.toList path hsub
    · simp only [Option.some.injEq] at h
      rw [← h]
  · intro h
    unfold LISTCommand.arguments at h
    split at h
    · rename_i verb arg1 rest hargs
      split at h
      · cases h
      · simp only [Option.some.injEq] at h
        rw [← h]
    · simp only [Option.some.injEq] at h
      rw [← h]

/-- C23: `LIST` does not derive the path that `NLST` derives. On the argument `/pub`,
`NLST` hands the path `/pub` to the directory listing, as the description of the commands
says, while `LIST` hands on `.`: `LIST /pub` writes the listing of `.` to the data
connection and `NLST /pub` that of `/pub`. -/
theorem LIST_ignores_path_argument :
    LISTCommand.arguments ⟨["LIST", "/pub"], "/pub"⟩ = some ("", ".") ∧
    NLSTCommand.arguments ⟨["NLST", "/pub"], "/pub"⟩ = some ("", "/pub") ∧
    spec.listingArguments ⟨["LIST", "/pub"], "/pub"⟩ = ("", "/pub") ∧
    (LISTCommand.Execute sample.env sample.client ⟨["LIST", "/pub"], "/pub"⟩).1.data =
      [DataCall.DataOpen, DataCall.Write "pub".toList, DataCall.DataClose] ∧
    (NLSTCommand.Execute sample.env sample.client ⟨["NLST", "/pub"], "/pub"⟩).1.data =
      [DataCall.DataOpen, DataCall.Write "readme.txt".toList, DataCall.DataClose] :=
  ⟨rfl, rfl, rfl, rfl, rfl⟩

/-! ### `PASV` against `PORT` -/

set_option maxRecDepth 100000 in
theorem spec.byteReprOk_all : (List.range 256).all spec.byteReprOk = true := by
  decide

theorem spec.byteReprOk_of_le (n : Nat) (hn : n ≤ 255) :
    boost.lexical_cast_int16 (toString n).toList = some (n : Int) ∧
    ∀ ch ∈ (toString n).toList, ch ≠ ',' ∧ ch ≠ '.' := by
  have hall := spec.byteReprOk_all
  rw [List.all_eq_true] at hall
  have hn2 := hall n (List.mem_range.2 (by omega))
  simp only [spec.byteReprOk, Bool.and_eq_true, beq_iff_eq, List.all_eq_true, bne_iff_ne,
    ne_eq] at hn2
  exact ⟨hn2.1, hn2.2⟩

theorem boost.split_no_separator (pred : Char → Bool) (l : List Char)
    (hl : ∀ ch ∈ l, pred ch = false) : boost.split pred l = [l] := by
  induction l with
  | nil => rfl
  | cons ch rest ih =>
    have h1 := hl ch (List.mem_cons_self _ _)
    have h2 := ih (fun x hx => hl x (List.mem_cons_of_mem _ hx))
    simp [boost.split, h1, h2]

theorem boost.split_append_separator (pred : Char → Bool) (l rest : List Char) (sep : Char)
    (hl : ∀ ch ∈ l, pred ch = false) (hsep : pred sep = true) :
    boost.split pred (l ++ sep :: rest) = l :: boost.split pred rest := by
  induction l with
  | nil => simp [boost.split, hsep]
  | cons ch more ih =>
    have h1 := hl ch (List.mem_cons_self _ _)
    have h2 := ih (fun x hx => hl x (List.mem_cons_of_mem _ hx))
    simp [boost.split, h1, h2]

theorem boost.replace_all_scan_char (source target : Char) (l : List Char) :
    boost.replace_all_scan [source] [target] 0 l =
      l.map fun ch => if ch = source then target else ch := by
  induction l with
  | nil => rfl
  | cons ch rest ih =>
    by_cases hch : ch = source
    · simp [boost.replace_all_scan, hch, ih, List.isPrefixOf]
    · simp [boost.replace_all_scan, hch, ih, List.isPrefixOf]
      intro h
      exact absurd h.symm hch

theorem boost.replace_keeps (source target : Char) (l : List Char)
    (hl : ∀ ch ∈ l, ch ≠ source) :
    (l.map fun ch => if ch = source then target else ch) = l := by
  induction l with
  | nil => rfl
  | cons ch rest ih =>
    have h1 := hl ch (List.mem_cons_self _ _)
    have h2 := ih (fun x hx => hl x (List.mem_cons_of_mem _ hx))
    simp [h1, h2]

/-- The bytes of a port: the high byte `(port >> 8) & 255` and the low byte `port & 255` are
at most 255 and put the port together again. -/
theorem boost.port_bytes (port : Nat) (hport : port ≤ 65535) :
    (port >>> 8) &&& 255 ≤ 255 ∧ port &&& 255 ≤ 255 ∧
    ((port >>> 8) &&& 255) * 256 + (port &&& 255) = port := by
  have h1 : (port >>> 8) &&& 255 = port / 256 % 256 := by
    rw [Nat.shiftRight_eq_div_pow]
    exact Nat.and_pow_two_sub_one_eq_mod (port / 2 ^ 8) 8
  have h2 : port &&& 255 = port % 256 := Nat.and_pow_two_sub_one_eq_mod port 8
  rw [h1, h2]
  omega

/-- The host string of `PASV` for the IPv4 address `a.b.c.d` is `a,b,c,d,p1,p2`. -/
theorem cmd.PASVCommand.hostString_eq (a b c d port : Nat) (family : Family)
    (ha : a ≤ 255) (hb : b ≤ 255) (hc : c ≤ 255) (hd : d ≤ 255) :
    (PASVCommand.hostString ⟨⟨family, spec.dottedQuad a b c d⟩, port⟩).toList =
      spec.commaList [a, b, c, d, (port >>> 8) &&& 255, port &&& 255] := by
  have ka : ∀ ch ∈ (toString a).data, ch ≠ '.' :=
    fun ch h => ((spec.byteReprOk_of_le a ha).2 ch h).2
  have kb : ∀ ch ∈ (toString b).data, ch ≠ '.' :=
    fun ch h => ((spec.byteReprOk_of_le b hb).2 ch h).2
  have kc : ∀ ch ∈ (toString c).data, ch ≠ '.' :=
    fun ch h => ((spec.byteReprOk_of_le c hc).2 ch h).2
  have kd : ∀ ch ∈ (toString d).data, ch ≠ '.' :=
    fun ch h => ((spec.byteReprOk_of_le d hd).2 ch h).2
  simp only [PASVCommand.hostString, boost.replace_all_copy, boost.replace_all_scan_char,
    spec.dottedQuad, spec.commaList, String.toList, String.data_append, List.map_append,
    List.append_assoc]
  rw [boost.replace_keeps '.' ',' _ ka, boost.replace_keeps '.' ',' _ kb,
    boost.replace_keeps '.' ',' _ kc, boost.replace_keeps '.' ',' _ kd]
  simp

/-- A host string `n1,...,n6` of bytes splits at its commas into the six decimal forms. -/
theorem spec.split_commaList (n1 n2 n3 n4 n5 n6 : Nat)
    (h1 : n1 ≤ 255) (h2 : n2 ≤ 255) (h3 : n3 ≤ 255) (h4 : n4 ≤ 255) (h5 : n5 ≤ 255)
    (h6 : n6 ≤ 255) :
    boost.split (boost.is_any_of [',']) (spec.commaList [n1, n2, n3, n4, n5, n6]) =
      [(toString n1).toList, (toString n2).toList, (toString n3).toList,
        (toString n4).toList, (toString n5).toList, (toString n6).toList] := by
  have key : ∀ n, n ≤ 255 → ∀ ch ∈ (toString n).toList, boost.is_any_of [','] ch = false := by
    intro n hn ch hch
    have := ((spec.byteReprOk_of_le n hn).2 ch hch).1
    simp [boost.is_any_of, this]
  have hsep : boost.is_any_of [','] ',' = true := by decide
  simp only [spec.commaList]
  rw [boost.split_append_separator _ _ _ _ (key n1 h1) hsep,
    boost.split_append_separator _ _ _ _ (key n2 h2) hsep,
    boost.split_append_separator _ _ _ _ (key n3 h3) hsep,
    boost.split_append_separator _ _ _ _ (key n4 h4) hsep,
    boost.split_append_separator _ _ _ _ (key n5 h5) hsep,
    boost.split_no_separator _ _ (key n6 h6)]

/-- The call that `PORTCommand::Execute` makes on the data connection once its argument has
split into six fields that convert to bytes. -/
theorem cmd.PORT_of_converted_fields (env : ftp.Env) (client : Client) (c : Command)
    (verb arg : String) (f1 f2 f3 f4 f5 f6 : List Char) (h1 h2 h3 h4 p1 p2 : Nat)
    (ip : IPAddress)
    (hargs : c.args = [verb, arg])
    (hsplit : boost.split (boost.is_any_of [',']) arg.toList = [f1, f2, f3, f4, f5, f6])
    (e1 : boost.lexical_cast_int16 f1 = some (h1 : Int)) (hb1 : h1 ≤ 255)
    (e2 : boost.lexical_cast_int16 f2 = some (h2 : Int)) (hb2 : h2 ≤ 255)
    (e3 : boost.lexical_cast_int16 f3 = some (h3 : Int)) (hb3 : h3 ≤ 255)
    (e4 : boost.lexical_cast_int16 f4 = some (h4 : Int)) (hb4 : h4 ≤ 255)
    (e5 : boost.lexical_cast_int16 f5 = some (p1 : Int)) (hb5 : p1 ≤ 255)
    (e6 : boost.lexical_cast_int16 f6 = some (p2 : Int)) (hb6 : p2 ≤ 255)
    (hip : env.ipAddress (spec.dottedQuad h1 h2 h3 h4) = some ip) :
    (PORTCommand.Execute env client c).data =
      client.data ++ [DataCall.DataInitialise ⟨ip, p1 * 256 + p2⟩ false] := by
  have hrange : [(h1 : Int), h2, h3, h4, p1, p2].any (fun v => v < 0 || v > 255) = false := by
    simp only [List.any_cons, List.any_nil, Bool.or_false, Bool.or_eq_false_iff,
      decide_eq_false_iff_not, not_lt]
    omega
  have hip2 : mkEndpoint env
      (toString (h1 : Int) ++ "." ++ toString (h2 : Int) ++ "." ++ toString (h3 : Int) ++ "." ++
        toString (h4 : Int)) (((p1 : Int).toNat <<< 8) ||| (p2 : Int).toNat) =
      some ⟨ip, p1 * 256 + p2⟩ := by
    have : (toString (h1 : Int) ++ "." ++ toString (h2 : Int) ++ "." ++ toString (h3 : Int) ++
        "." ++ toString (h4 : Int)) = spec.dottedQuad h1 h2 h3 h4 := rfl
    rw [this, Int.toNat_natCast, Int.toNat_natCast, boost.shift_or_eq p1 p2 hb6]
    simp [mkEndpoint, hip]
  unfold PORTCommand.Execute
  rw [hargs]
  simp only [hsplit, List.map_cons, List.map_nil, e1, e2, e3, e4, e5, e6, hrange, hip2,
    Client.DataInitialise, Bool.false_eq_true, if_false]
  cases hd : env.dataInitialise ⟨ip, p1 * 256 + p2⟩ false with
  | none => simp [Client.Reply]
  | some ep => simp [Client.Reply]

/-- C24: for an IPv4 address `a.b.c.d` and a port of `0..65535`, the host string that `PASV`
builds is `a,b,c,d,p1,p2` with `p1 = (port >> 8) & 255` and `p2 = port & 255`; it splits into
six fields that are decimal integers within `0..255`, the assembly `(p1 << 8) | p2` gives the
port back, and `PORT` on that string sets up the data connection to the address `a.b.c.d` and
that port. -/
theorem PASV_host_string_is_read_back_by_PORT (env : ftp.Env) (client : Client)
    (verb : String) (a b c d port : Nat) (ip : IPAddress)
    (ha : a ≤ 255) (hb : b ≤ 255) (hc : c ≤ 255) (hd : d ≤ 255) (hport : port ≤ 65535)
    (hip : env.ipAddress (spec.dottedQuad a b c d) = some ip) :
    (PASVCommand.hostString ⟨⟨Family.IPv4, spec.dottedQuad a b c d⟩, port⟩).toList =
      spec.commaList [a, b, c, d, (port >>> 8) &&& 255, port &&& 255] ∧
    (boost.split (boost.is_any_of [','])
      (PASVCommand.hostString ⟨⟨Family.IPv4, spec.dottedQuad a b c d⟩, port⟩).toList).length =
        6 ∧
    (∀ f ∈ boost.split (boost.is_any_of [','])
        (PASVCommand.hostString ⟨⟨Family.IPv4, spec.dottedQuad a b c d⟩, port⟩).toList,
      spec.isByteField f = true) ∧
    (((port >>> 8) &&& 255) <<< 8) ||| (port &&& 255) = port ∧
    (PORTCommand.Execute env client
        ⟨[verb, PASVCommand.hostString ⟨⟨Family.IPv4, spec.dottedQuad a b c d⟩, port⟩],
          PASVCommand.hostString ⟨⟨Family.IPv4, spec.dottedQuad a b c d⟩, port⟩⟩).data =
      client.data ++ [DataCall.DataInitialise ⟨ip, port⟩ false] := by
  obtain ⟨hp1, hp2, hsum⟩ := boost.port_bytes port hport
  have hhost := cmd.PASVCommand.hostString_eq a b c d port Family.IPv4 ha hb hc hd
  have hsplit := spec.split_commaList a b c d ((port >>> 8) &&& 255) (port &&& 255)
    ha hb hc hd hp1 hp2
  rw [← hhost] at hsplit
  have ea := (spec.byteReprOk_of_le a ha).1
  have eb := (spec.byteReprOk_of_le b hb).1
  have ec := (spec.byteReprOk_of_le c hc).1
  have ed := (spec.byteReprOk_of_le d hd).1
  have e1 := (spec.byteReprOk_of_le _ hp1).1
  have e2 := (spec.byteReprOk_of_le _ hp2).1
  refine ⟨hhost, ?_, ?_, ?_, ?_⟩
  · rw [hsplit]
    rfl
  · intro f hf
    rw [hsplit] at hf
    simp only [List.mem_cons, List.mem_singleton, List.not_mem_nil, or_false] at hf
    rcases hf with rfl | rfl | rfl | rfl | rfl | rfl
    · exact spec.isByteField_of_lexical_cast _ _ ea (by omega) (by omega)
    · exact spec.isByteField_of_lexical_cast _ _ eb (by omega) (by omega)
    · exact spec.isByteField_of_lexical_cast _ _ ec (by omega) (by omega)
    · exact spec.isByteField_of_lexical_cast _ _ ed (by omega) (by omega)
    · exact spec.isByteField_of_lexical_cast _ _ e1 (by omega) (by omega)
    · exact spec.isByteField_of_lexical_cast _ _ e2 (by omega) (by omega)
  · rw [boost.shift_or_eq _ _ hp2]
    exact hsum
  · have hexec := cmd.PORT_of_converted_fields env client
      ⟨[verb, PASVCommand.hostString ⟨⟨Family.IPv4, spec.dottedQuad a b c d⟩, port⟩],
        PASVCommand.hostString ⟨⟨Family.IPv4, spec.dottedQuad a b c d⟩, port⟩⟩
      verb _ _ _ _ _ _ _ a b c d _ _ ip rfl hsplit ea ha eb hb ec hc ed hd e1 hp1 e2 hp2 hip
    rw [hsum] at hexec
    exact hexec

/-- The listener `127.0.0.1:50000`: `PASV` answers `127,0,0,1,195,80`, and `PORT` on that
string sets up the data connection to `127.0.0.1`, port `50000`. -/
theorem PASV_host_string_is_read_back_by_PORT_witness :
    (PASVCommand.Execute sample.env sample.client ⟨["PASV"], ""⟩).control =
      [(ReplyCode.PassiveMode, "Entering passive mode (127,0,0,1,195,80)")] ∧
    PASVCommand.hostString ⟨⟨Family.IPv4, spec.dottedQuad 127 0 0 1⟩, 50000⟩ =
      "127,0,0,1,195,80" ∧
    (PORTCommand.Execute sample.env sample.client
        ⟨["PORT", PASVCommand.hostString ⟨⟨Family.IPv4, spec.dottedQuad 127 0 0 1⟩, 50000⟩],
          PASVCommand.hostString ⟨⟨Family.IPv4, spec.dottedQuad 127 0 0 1⟩, 50000⟩⟩).data =
      sample.client.data ++
        [DataCall.DataInitialise ⟨⟨Family.IPv4, "127.0.0.1"⟩, 50000⟩ false] :=
  ⟨by decide, by decide,
    (PASV_host_string_is_read_back_by_PORT sample.env sample.client "PORT" 127 0 0 1 50000
      ⟨Family.IPv4, "127.0.0.1"⟩ (by decide) (by decide) (by decide) (by decide) (by decide)
      (by decide)).2.2.2.2⟩
